import Mathlib

/-
Verification of the computational core of the HURRICANE-DATA-ETL repository.

The Python sources are shallowly embedded: pandas DataFrames become typed row
lists, floats become `Rat` (for exact bookkeeping arithmetic) or `Real` (for the
spherical-trigonometry layer), `NaN`/missing values become `Option`, and raised
exceptions become `Except.error`.  External collaborators (shapely geometric
predicates, the linestring projection and the pandas nearest-row interpolation)
are passed in as explicit oracle parameters where the source calls out to them.
-/

namespace Hurricane

/-- Decidable equality for `Except` results. -/
instance {ε α : Type} [DecidableEq ε] [DecidableEq α] : DecidableEq (Except ε α)
  | Except.error e1, Except.error e2 => decidable_of_iff (e1 = e2) (by simp)
  | Except.error _, Except.ok _ => isFalse (fun hc => Except.noConfusion hc)
  | Except.ok _, Except.error _ => isFalse (fun hc => Except.noConfusion hc)
  | Except.ok a1, Except.ok a2 => decidable_of_iff (a1 = a2) (by simp)

/-! ## Duration features — `02_transformations/duration/src/duration_calculator.py` -/

/-- One row of the exposure timeline produced by `check_centroid_exposure_over_time`:
a timestamp (seconds) and the point-in-polygon flag. -/
structure ExposureEntry where
  date : Int
  is_inside : Bool
deriving DecidableEq, Repr

/-- The result dictionary of `calculate_duration_features` /
`_interpolate_duration_near_edge`. -/
structure DurationFeatures where
  first_entry_time : Option Int
  last_exit_time : Option Int
  duration_in_envelope_hours : Rat
  exposure_window_hours : Rat
  continuous_exposure : Bool
  interpolated_points_count : Nat
  duration_source : String
deriving DecidableEq, Repr

/-- Embedding of `calculate_duration_features` (duration_calculator.py, lines 180-214).
`np.argmax` on a boolean mask returns the index of the first `True`; the reversed
`argmax` locates the last `True`. -/
def calculate_duration_features (exposure_timeline : List ExposureEntry)
    (interval_minutes : Int) : DurationFeatures :=
  let in_mask := exposure_timeline.map (·.is_inside)
  let timestamps := exposure_timeline.map (·.date)
  let base : DurationFeatures :=
    { first_entry_time := none
      last_exit_time := none
      duration_in_envelope_hours := 0
      exposure_window_hours := 0
      continuous_exposure := false
      interpolated_points_count := exposure_timeline.length
      duration_source := "timeline" }
  if in_mask.any (fun b => b) then
    let first_idx := in_mask.findIdx (fun b => b)
    let last_idx := in_mask.length - 1 - in_mask.reverse.findIdx (fun b => b)
    let duration_hours : Rat := (in_mask.count true : Rat) * ((interval_minutes : Rat) / 60)
    let window_hours : Rat := (((last_idx : Rat) - (first_idx : Rat)) * (interval_minutes : Rat)) / 60
    let segment := (in_mask.drop first_idx).take (last_idx + 1 - first_idx)
    { base with
      first_entry_time := some (timestamps.getD first_idx 0)
      last_exit_time := some (timestamps.getD last_idx 0)
      duration_in_envelope_hours := duration_hours
      exposure_window_hours := window_hours
      continuous_exposure := segment.all (fun b => b) }
  else base

/-- Index of the first inside step of a timeline (the `first_idx` local of
`calculate_duration_features`). -/
def firstInsideIdx (exposure_timeline : List ExposureEntry) : Nat :=
  (exposure_timeline.map (·.is_inside)).findIdx (fun b => b)

/-- Index of the last inside step of a timeline (the `last_idx` local of
`calculate_duration_features`). -/
def lastInsideIdx (exposure_timeline : List ExposureEntry) : Nat :=
  exposure_timeline.length - 1 - (exposure_timeline.map (·.is_inside)).reverse.findIdx (fun b => b)

/-! ## Lead times — `02_transformations/lead_time/src/lead_time_calculator.py` -/

/-- A track row as consumed by the lead-time calculator: timestamp (seconds since
an arbitrary epoch) and the optional `max_wind` column (`none` = NaN). -/
structure LeadTimeRow where
  date : Int
  max_wind : Option Rat
deriving DecidableEq, Repr

/-- The Saffir-Simpson thresholds (knots) of `CATEGORY_THRESHOLDS`, in the
dictionary order cat1 .. cat5. -/
def CATEGORY_THRESHOLDS : List Rat := [64, 83, 96, 113, 137]

/-- Embedding of `find_category_threshold_time`: pandas filters rows with
`max_wind >= threshold` (NaN compares false) and takes the minimum date. -/
def find_category_threshold_time (track_df : List LeadTimeRow) (threshold_kt : Rat) :
    Option Int :=
  let threshold_obs := track_df.filter (fun r =>
    match r.max_wind with
    | some w => threshold_kt ≤ w
    | none => false)
  match threshold_obs with
  | [] => none
  | r :: rest => some (rest.foldl (fun m s => min m s.date) r.date)

/-- Embedding of `calculate_lead_times`: lead times, in hours, in the order
cat1 .. cat5 (`none` = the category was never reached). -/
def calculate_lead_times (track_df : List LeadTimeRow) (nearest_approach_time : Int) :
    List (Option Rat) :=
  CATEGORY_THRESHOLDS.map (fun threshold_kt =>
    match find_category_threshold_time track_df threshold_kt with
    | none => none
    | some t => some (((nearest_approach_time - t : Int) : Rat) / 3600))

/-- Check 1 of `validate_lead_times`: once a `None` is seen, any later non-`None`
value fails the validation. -/
def checkNoneSuffix : Bool → List (Option Rat) → Bool
  | _, [] => true
  | found_none, v :: rest =>
    match v with
    | none => checkNoneSuffix true rest
    | some _ => if found_none then false else checkNoneSuffix found_none rest

/-- Check 2 of `validate_lead_times`: consecutive non-`None` lead times may not
increase by more than the 6-hour tolerance. -/
def checkDecreasing : List Rat → Bool
  | a :: b :: rest => if a < b - 6 then false else checkDecreasing (b :: rest)
  | _ => true

/-- Embedding of `validate_lead_times` (lead_time_calculator.py, lines 114-152). -/
def validate_lead_times (lead_times : List (Option Rat)) : Bool :=
  checkNoneSuffix false lead_times && checkDecreasing (lead_times.filterMap id)

/-! ## Temporal track interpolation — `duration_calculator.py`, lines 21-70

A pandas DataFrame row becomes a timestamp (`date`, seconds) plus the values of
the remaining numeric columns in column order (`none` = NaN).  A frame carries
its rows plus the fact of whether the `date` column exists at all. -/

/-- One DataFrame row: the `date` column (seconds) and the non-date numeric
columns in order. -/
structure TrackRow where
  date : Int
  vals : List (Option Rat)
deriving DecidableEq, Repr

/-- A DataFrame as consumed by `interpolate_track_temporal`: whether the frame
has a `date` column, and its rows. -/
structure TrackFrame where
  has_date_col : Bool
  rows : List TrackRow
deriving DecidableEq, Repr

/-- Linear interpolation of one numeric cell by time fraction; a NaN endpoint
makes the interpolated cell NaN (duration_calculator.py, lines 58-64). -/
def lerpVal (ratio : Rat) : Option Rat → Option Rat → Option Rat
  | some a, some b => some (a + ratio * (b - a))
  | _, _ => none

/-- The interpolated rows generated strictly between one pair of consecutive
observations (the `for step in range(1, steps + 1)` loop, lines 42-65).
Python floor division `delta // interval_seconds` is `Int.fdiv`. -/
def interpSegment (interval_seconds : Int) (start stop : TrackRow) : List TrackRow :=
  let delta := stop.date - start.date
  if delta ≤ 0 then []
  else
    let steps := delta.fdiv interval_seconds
    (List.range steps.toNat).map (fun (k : Nat) =>
      let step : Int := (k : Int) + 1
      let ratio : Rat := ((step * interval_seconds : Int) : Rat) / ((delta : Int) : Rat)
      let current_time := start.date + step * interval_seconds
      let tr : Int × Rat :=
        if stop.date < current_time then (stop.date, 1) else (current_time, ratio)
      { date := tr.1, vals := List.zipWith (lerpVal tr.2) start.vals stop.vals })

/-- All consecutive pairs of a list (the `idx`, `idx + 1` iteration). -/
def consecPairs : List TrackRow → List (TrackRow × TrackRow)
  | a :: b :: rest => (a, b) :: consecPairs (b :: rest)
  | _ => []

/-- Replace the last element of a list (`records[-1] = ...`). -/
def setLast (x : TrackRow) : List TrackRow → List TrackRow
  | [] => []
  | [_] => [x]
  | a :: b :: rest => a :: setLast x (b :: rest)

/-- Embedding of `interpolate_track_temporal` (duration_calculator.py, lines 21-70).
Raising `ValueError` / `IndexError` becomes `Except.error`.  The function itself
sorts its input by `date` (`sort_values`); on a one-row input the final
`records[-1] = ...` assignment hits an empty list and raises `IndexError`. -/
def interpolate_track_temporal (track_df : TrackFrame) (interval_minutes : Int) :
    Except String (List TrackRow) :=
  if ¬ track_df.has_date_col then
    Except.error "track_df must include a date column"
  else
    let track_sorted := List.insertionSort (fun a b => a.date ≤ b.date) track_df.rows
    let interval_seconds := interval_minutes * 60
    match track_sorted with
    | [] => Except.ok []
    | [_] => Except.error "IndexError: list assignment index out of range"
    | r0 :: r1 :: rest =>
      let body :=
        ((consecPairs (r0 :: r1 :: rest)).map
          (fun p => interpSegment interval_seconds p.1 p.2)).flatten
      Except.ok (setLast ((r0 :: r1 :: rest).getLast (by simp)) (r0 :: body))

/-! ## Proportional wind-radii imputation — `hurdat2/src/envelope_algorithm.py`,
lines 127-260 -/

/-- A compass quadrant of the HURDAT2 wind radii. -/
inductive Quadrant
  | ne
  | se
  | sw
  | nw
deriving DecidableEq, Repr

/-- The fixed iteration order `quadrants = ["ne", "se", "sw", "nw"]`. -/
def quadrantList : List Quadrant := [Quadrant.ne, Quadrant.se, Quadrant.sw, Quadrant.nw]

/-- The four raw quadrant radii of one track row at one threshold
(`wind_radii_{prefix}_{quad}` columns; `none` = NaN). -/
structure RadiiRow where
  ne : Option Rat
  se : Option Rat
  sw : Option Rat
  nw : Option Rat
deriving DecidableEq, Repr

/-- Quadrant accessor for a radii row. -/
def RadiiRow.get (r : RadiiRow) : Quadrant → Option Rat
  | Quadrant.ne => r.ne
  | Quadrant.se => r.se
  | Quadrant.sw => r.sw
  | Quadrant.nw => r.nw

/-- Functional update of one quadrant of a radii row. -/
def RadiiRow.set (r : RadiiRow) : Quadrant → Option Rat → RadiiRow
  | Quadrant.ne, v => { r with ne := v }
  | Quadrant.se, v => { r with se := v }
  | Quadrant.sw, v => { r with sw := v }
  | Quadrant.nw, v => { r with nw := v }

/-- The pandas test `vals.notna() & (vals > 0)` for one cell. -/
def validRadius : Option Rat → Bool
  | some v => decide (0 < v)
  | none => false

/-- `defined_count`: how many of the four quadrants are present and positive. -/
def definedCount (r : RadiiRow) : Nat :=
  (quadrantList.filter (fun q => validRadius (r.get q))).length

/-- Recursion underlying `identify_imputable_segments`, walking the rows with
the previous raw row at hand. -/
def identifyAux : Option RadiiRow → List RadiiRow → List Bool
  | _, [] => []
  | prev, r :: rest =>
    let dc := definedCount r
    let prev_dc := match prev with
      | some p => definedCount p
      | none => 0
    let imputable := if dc = 4 then false else decide (2 ≤ dc) || decide (2 ≤ prev_dc)
    imputable :: identifyAux (some r) rest

/-- Embedding of `identify_imputable_segments` (envelope_algorithm.py, lines
127-158): a row is eligible for imputation when it is not fully observed and
either it or the previous row has at least two defined quadrants. -/
def identify_imputable_segments (storm_track : List RadiiRow) : List Bool :=
  identifyAux none storm_track

/-- One output row of `impute_missing_wind_radii`: the untouched raw columns,
the derived `_imputed` columns, the `_was_imputed` flags, the
`_shrinkage_ratio` column and the `_any_imputed` flag. -/
structure ImputedRow where
  raw : RadiiRow
  imputed : RadiiRow
  flag_ne : Bool
  flag_se : Bool
  flag_sw : Bool
  flag_nw : Bool
  shrinkage_ratio : Option Rat
  any_imputed : Bool
deriving DecidableEq, Repr

/-- Flag accessor for an imputed row. -/
def ImputedRow.flag (r : ImputedRow) : Quadrant → Bool
  | Quadrant.ne => r.flag_ne
  | Quadrant.se => r.flag_se
  | Quadrant.sw => r.flag_sw
  | Quadrant.nw => r.flag_nw

/-- The per-quadrant ratios `current_raw / previous_imputed` gathered at lines
199-208 of envelope_algorithm.py: the current raw value must be present (any
value, not necessarily positive) and the previous effective value present and
strictly positive. -/
def ratioList (prevImputed : RadiiRow) (cur : RadiiRow) : List Rat :=
  quadrantList.filterMap (fun q =>
    match cur.get q, prevImputed.get q with
    | some c, some p => if 0 < p then some (c / p) else none
    | _, _ => none)

/-- One iteration of the quadrant-filling loop of lines 234-253: a quadrant
whose raw value is present and positive is left alone; otherwise, when the
previous effective value exists, the quadrant is filled with
`previous * ratio` clamped at 0 and flagged. -/
def fillStep (applied_ratio : Rat) (prevImputed cur : RadiiRow)
    (acc : RadiiRow × (Quadrant → Bool)) (q : Quadrant) : RadiiRow × (Quadrant → Bool) :=
  if validRadius (cur.get q) then acc
  else
    match prevImputed.get q with
    | none => acc
    | some pv =>
      let v : Rat := if pv ≤ 0 then 0 else if pv * applied_ratio < 0 then 0 else pv * applied_ratio
      (acc.1.set q (some v), fun q2 => if q2 = q then true else acc.2 q2)

/-- The quadrant-filling loop of lines 234-253: given the applied ratio and the
previous row's effective radii, fill every quadrant whose raw value is not
present-and-positive.  Returns the new effective radii and the flags. -/
def fillQuadrants (applied_ratio : Rat) (prevImputed : RadiiRow) (cur : RadiiRow) :
    RadiiRow × (Quadrant → Bool) :=
  quadrantList.foldl (fillStep applied_ratio prevImputed cur) (cur, fun _ => false)

/-- The body of the `for position, idx in enumerate(index_list)` loop of
`impute_missing_wind_radii` (lines 188-258), producing the output row and the
updated `last_known_ratio` carry. -/
def imputeRowStep (prev : Option ImputedRow) (last_known_ratio : Option Rat)
    (r : RadiiRow) (imputable : Bool) : ImputedRow × Option Rat :=
  let applied0 : Option Rat :=
    match prev with
    | none => none
    | some p =>
      let ratios := ratioList p.imputed r
      if ratios.isEmpty then none
      else some (max (ratios.sum / (ratios.length : Rat)) 0)
  let last_known1 : Option Rat :=
    match applied0 with
    | some a => some a
    | none => last_known_ratio
  let ratio_col : Option Rat :=
    match applied0 with
    | some a => some a
    | none => last_known_ratio
  let skipRow : ImputedRow :=
    { raw := r, imputed := r, flag_ne := false, flag_se := false, flag_sw := false,
      flag_nw := false, shrinkage_ratio := ratio_col, any_imputed := false }
  if ¬ imputable then (skipRow, last_known1)
  else
    let dc := definedCount r
    let applied1 : Option Rat :=
      if 2 ≤ dc then
        match applied0, last_known_ratio with
        | none, some lk => some lk
        | a, _ => a
      else applied0
    let applied2 : Option Rat :=
      if dc < 2 then
        match applied1 with
        | some a => some a
        | none => last_known_ratio
      else applied1
    match applied2, prev with
    | some ar, some p =>
      let filled := fillQuadrants ar p.imputed r
      let row_imputed :=
        filled.2 Quadrant.ne || filled.2 Quadrant.se || filled.2 Quadrant.sw ||
          filled.2 Quadrant.nw
      ({ raw := r, imputed := filled.1, flag_ne := filled.2 Quadrant.ne,
         flag_se := filled.2 Quadrant.se, flag_sw := filled.2 Quadrant.sw,
         flag_nw := filled.2 Quadrant.nw, shrinkage_ratio := ratio_col,
         any_imputed := row_imputed },
       if row_imputed then some ar else last_known1)
    | _, _ => (skipRow, last_known1)

/-- Recursion over the zipped (row, imputable-mask) list carrying the previous
output row and the `last_known_ratio` state. -/
def imputeAux : Option ImputedRow → Option Rat → List (RadiiRow × Bool) → List ImputedRow
  | _, _, [] => []
  | prev, lkr, (r, m) :: rest =>
    let step := imputeRowStep prev lkr r m
    step.1 :: imputeAux (some step.1) step.2 rest

/-- Embedding of `impute_missing_wind_radii` (envelope_algorithm.py, lines
161-260).  The `_imputed` columns are initialised from the raw columns and the
`last_known_ratio` carry is seeded at 1.0. -/
def impute_missing_wind_radii (storm_track : List RadiiRow) : List ImputedRow :=
  imputeAux none (some 1) (storm_track.zip (identify_imputable_segments storm_track))

/-- The raw (base-column) view of an imputed track. -/
def rawOf (track : List ImputedRow) : List RadiiRow :=
  track.map (·.raw)

/-! ## Spherical geodesy — `04_src_shared/geometry_utils.py` and the identical
helpers at the top of `hurdat2/src/envelope_algorithm.py`.

Python floats are idealised as real numbers; `math.sin`, `math.asin`,
`math.atan2` become their exact counterparts.  `math.atan2 y x` is the argument
of the complex number `x + y*I` (both land in `(-pi, pi]` and agree on the axes,
including `atan2 0 0 = 0`). -/

noncomputable section

open Real

/-- Earth radius in nautical miles (`R_NM = 3440.065`). -/
def R_NM : ℝ := 3440.065

/-- `math.radians`. -/
def deg2rad (d : ℝ) : ℝ := d * (Real.pi / 180)

/-- `math.degrees`. -/
def rad2deg (r : ℝ) : ℝ := r * (180 / Real.pi)

/-- `math.atan2 y x`, modelled as the complex argument of `x + y*I`. -/
def atan2 (y x : ℝ) : ℝ := Complex.arg (Complex.mk x y)

/-- Python float `a % b` for a positive modulus `b`: `a - b * floor (a / b)`. -/
def pymod (a b : ℝ) : ℝ := a - b * ⌊a / b⌋

/-- Embedding of `calculate_destination_point` (geometry_utils.py lines 11-48,
envelope_algorithm.py lines 30-69 — the two copies are textually identical).
Returns `(dest_lon, dest_lat)` in degrees. -/
def calculate_destination_point (lat lon bearing distance_nm : ℝ) : ℝ × ℝ :=
  let lat_rad := deg2rad lat
  let lon_rad := deg2rad lon
  let bearing_rad := deg2rad bearing
  let angular_distance := distance_nm / R_NM
  let dest_lat_rad := Real.arcsin
    (Real.sin lat_rad * Real.cos angular_distance +
      Real.cos lat_rad * Real.sin angular_distance * Real.cos bearing_rad)
  let dest_lon_rad := lon_rad + atan2
    (Real.sin bearing_rad * Real.sin angular_distance * Real.cos lat_rad)
    (Real.cos angular_distance - Real.sin lat_rad * Real.sin dest_lat_rad)
  (rad2deg dest_lon_rad, rad2deg dest_lat_rad)

/-- Embedding of `haversine_distance` (geometry_utils.py, lines 51-72): the
`atan2`-form haversine, in nautical miles. -/
def haversine_distance (lat1 lon1 lat2 lon2 : ℝ) : ℝ :=
  let lat1_rad := deg2rad lat1
  let lat2_rad := deg2rad lat2
  let delta_lat := deg2rad (lat2 - lat1)
  let delta_lon := deg2rad (lon2 - lon1)
  let a := Real.sin (delta_lat / 2) ^ 2 +
    Real.cos lat1_rad * Real.cos lat2_rad * Real.sin (delta_lon / 2) ^ 2
  let c := 2 * atan2 (Real.sqrt a) (Real.sqrt (1 - a))
  R_NM * c

/-- Embedding of `calculate_bearing` (geometry_utils.py, lines 75-96): initial
bearing in degrees, `(degrees(atan2(x, y)) + 360) % 360`. -/
def calculate_bearing (lat1 lon1 lat2 lon2 : ℝ) : ℝ :=
  let lat1_rad := deg2rad lat1
  let lat2_rad := deg2rad lat2
  let delta_lon := deg2rad (lon2 - lon1)
  let x := Real.sin delta_lon * Real.cos lat2_rad
  let y := Real.cos lat1_rad * Real.sin lat2_rad -
    Real.sin lat1_rad * Real.cos lat2_rad * Real.cos delta_lon
  let bearing_rad := atan2 x y
  let bearing_deg := rad2deg bearing_rad
  pymod (bearing_deg + 360) 360

/-- Embedding of `_haversine_nm` (hurdat2_census/src/wind_interpolation.py,
lines 16-24): the `asin`-form haversine, in nautical miles. -/
def _haversine_nm (lat1 lon1 lat2 lon2 : ℝ) : ℝ :=
  let lat1_rad := deg2rad lat1
  let lon1_rad := deg2rad lon1
  let lat2_rad := deg2rad lat2
  let lon2_rad := deg2rad lon2
  let dlat := lat2_rad - lat1_rad
  let dlon := lon2_rad - lon1_rad
  let a := Real.sin (dlat / 2) ^ 2 +
    Real.cos lat1_rad * Real.cos lat2_rad * Real.sin (dlon / 2) ^ 2
  let c := 2 * Real.arcsin (Real.sqrt a)
  R_NM * c

/-! ## Instantaneous wind polygons — `duration_calculator.py` lines 73-156 and
`envelope_algorithm.py` lines 74-124.

Shapely geometry objects are modelled as a symbolic term algebra: the embedding
records which geometry the code constructs; the external shapely predicates
(`is_valid`, `contains`) are oracle parameters. -/

/-- Python float `a % b` on rationals (`bearing % 360.0`). -/
def qmod (a b : ℚ) : ℚ := a - b * ⌊a / b⌋

/-- `QUADRANT_BEARING_RANGES` (envelope_algorithm.py, lines 74-79). -/
def QUADRANT_BEARING_RANGES : Quadrant → ℚ × ℚ
  | Quadrant.ne => (45, 135)
  | Quadrant.se => (135, 225)
  | Quadrant.sw => (225, 315)
  | Quadrant.nw => (315, 405)

/-- `np.linspace a b n` over the rationals. -/
def linspaceQ (a b : ℚ) (n : ℕ) (endpoint : Bool) : List ℚ :=
  if endpoint then
    if n = 1 then [a]
    else (List.range n).map (fun i => a + ((i : ℚ) * (b - a)) / ((n : ℚ) - 1))
  else (List.range n).map (fun i => a + ((i : ℚ) * (b - a)) / (n : ℚ))

/-- Embedding of `generate_quadrant_arc_points` (envelope_algorithm.py, lines
82-124): evenly spaced `(lon, lat)` samples along one quadrant arc; an absent or
non-positive radius yields the empty list.  The `ValueError` on an unsupported
quadrant label cannot arise because quadrants are an enumerated type here. -/
def generate_quadrant_arc_points (lat lon : ℚ) (quadrant : Quadrant)
    (radius_nm : Option ℚ) (num_points : ℕ) (include_endpoint : Bool) :
    List (ℝ × ℝ) :=
  match radius_nm with
  | none => []
  | some r =>
    if r ≤ 0 then []
    else
      let sample_count := max 2 num_points
      let range := QUADRANT_BEARING_RANGES quadrant
      (linspaceQ range.1 range.2 sample_count include_endpoint).map (fun bearing =>
        calculate_destination_point (lat : ℝ) (lon : ℝ) ((qmod bearing 360 : ℚ) : ℝ) (r : ℝ))

/-- Symbolic shapely geometry terms as constructed by the polygon builder. -/
inductive PyGeometry
  | point (x y : ℝ)
  | lineString (coords : List (ℝ × ℝ))
  | polygon (coords : List (ℝ × ℝ))
  | buffer (g : PyGeometry) (dist : ℝ)

/-- The single chord bearing per quadrant used in the sparse-quadrant fallback
(`bearings = {"ne": 45, "se": 135, "sw": 225, "nw": 315}`). -/
def chordBearing : Quadrant → ℚ
  | Quadrant.ne => 45
  | Quadrant.se => 135
  | Quadrant.sw => 225
  | Quadrant.nw => 315

/-- Embedding of `create_instantaneous_wind_polygon` (duration_calculator.py,
lines 73-156).  `is_valid_poly` is the external shapely `Polygon.is_valid`
predicate. -/
def create_instantaneous_wind_polygon (is_valid_poly : PyGeometry → Bool)
    (lat lon : ℚ)
    (wind_radii_ne wind_radii_se wind_radii_sw wind_radii_nw : Option ℚ)
    (buffer_deg : ℚ) (arc_points_per_quadrant : ℕ) : Option PyGeometry :=
  let radii : Quadrant → Option ℚ := fun q =>
    match q with
    | Quadrant.ne => wind_radii_ne
    | Quadrant.se => wind_radii_se
    | Quadrant.sw => wind_radii_sw
    | Quadrant.nw => wind_radii_nw
  let valid_quadrants := quadrantList.filter (fun q => validRadius (radii q))
  if valid_quadrants.isEmpty then none
  else if valid_quadrants.length ≤ 2 then
    let points := valid_quadrants.filterMap (fun q =>
      (radii q).map (fun r =>
        calculate_destination_point (lat : ℝ) (lon : ℝ) ((chordBearing q : ℚ) : ℝ) (r : ℝ)))
    match points with
    | [p] => some (PyGeometry.buffer (PyGeometry.point p.1 p.2) (buffer_deg : ℝ))
    | ps => some (PyGeometry.buffer (PyGeometry.lineString ps) (buffer_deg : ℝ))
  else
    let arc_coords := quadrantList.foldl (fun acc q =>
      match radii q with
      | none => acc
      | some r =>
        if r ≤ 0 then acc
        else
          let arc_points :=
            generate_quadrant_arc_points lat lon q (some r) arc_points_per_quadrant true
          if arc_points.isEmpty then acc
          else if acc.isEmpty then acc ++ arc_points
          else acc ++ arc_points.tail) []
    if arc_coords.length < 3 then
      some (PyGeometry.buffer (PyGeometry.lineString arc_coords) (buffer_deg : ℝ))
    else
      let poly := PyGeometry.polygon arc_coords
      some (if is_valid_poly poly then poly else PyGeometry.buffer poly 0)

/-! ## Wind intensity model — `hurdat2_census/src/wind_interpolation.py`,
lines 160-306.

The shapely linestring projection (`find_nearest_point_on_linestring`), the
pandas nearest-row interpolations (`interpolate_max_wind_at_point`,
`interpolate_radius_max_wind_at_point`) and the shapely ray intersection
(`calculate_ray_envelope_intersection`) are external collaborators; their
results (`nearest_point`, `center_wind`, the raw interpolated RMW and
`edge_dist_nm`) enter `calculate_max_wind_experienced` as arguments. -/

/-- `math.isclose a b rel_tol` with the default `abs_tol = 0`. -/
def pyIsClose (a b rel_tol : ℝ) : Prop :=
  |a - b| ≤ max (rel_tol * max |a| |b|) 0

/-- The four quadrant radii of one wind-radii threshold in the `wind_radii`
dictionary (`none` = missing/NaN). -/
structure WindRadiiQuads where
  ne : Option Rat
  se : Option Rat
  sw : Option Rat
  nw : Option Rat

/-- The `wind_radii` dictionary restricted to the keys the model reads:
`wind_radii_{64,50,34}_{ne,se,sw,nw}`. -/
structure WindRadiiDict where
  kt64 : WindRadiiQuads
  kt50 : WindRadiiQuads
  kt34 : WindRadiiQuads

open Classical in
/-- Embedding of `_check_inside_wind_radii_quadrilateral` (wind_interpolation.py,
lines 160-198): false when any of the four radii is missing; otherwise the
centroid's quadrant relative to the track point selects the radius to compare
against the haversine distance. -/
noncomputable def _check_inside_wind_radii_quadrilateral
    (centroid track_point : ℝ × ℝ) (wind_radii : WindRadiiQuads) : Prop :=
  match wind_radii.ne, wind_radii.se, wind_radii.sw, wind_radii.nw with
  | some rne, some rse, some rsw, some rnw =>
    let lat_diff := centroid.2 - track_point.2
    let lon_diff := centroid.1 - track_point.1
    let radius : ℝ :=
      if 0 ≤ lat_diff ∧ 0 ≤ lon_diff then (rne : ℝ)
      else if lat_diff < 0 ∧ 0 ≤ lon_diff then (rse : ℝ)
      else if lat_diff < 0 ∧ lon_diff < 0 then (rsw : ℝ)
      else (rnw : ℝ)
    _haversine_nm track_point.2 track_point.1 centroid.2 centroid.1 ≤ radius
  | _, _, _, _ => False

/-- The result dictionary of `calculate_max_wind_experienced`. -/
structure WindResult where
  max_wind_experienced_kt : ℝ
  center_wind_at_approach_kt : ℝ
  distance_to_envelope_edge_nm : ℝ
  nearest_track_point_lat : ℝ
  nearest_track_point_lon : ℝ
  radius_max_wind_at_approach_nm : ℝ
  inside_eyewall : Prop
  wind_source : String

open Classical in
/-- Embedding of `calculate_max_wind_experienced` (wind_interpolation.py, lines
201-306).  `center_wind`, the raw interpolated RMW (`rmw_interp`), the
ray-to-envelope exit distance (`edge_dist_nm`) and the projected `nearest_point`
are supplied by the external collaborators listed above. -/
noncomputable def calculate_max_wind_experienced
    (centroid nearest_point : ℝ × ℝ) (center_wind rmw_interp edge_dist_nm : ℝ)
    (wind_radii : Option WindRadiiDict) : WindResult :=
  let rmw_at_approach := max rmw_interp 0
  let centroid_dist_nm :=
    _haversine_nm nearest_point.2 nearest_point.1 centroid.2 centroid.1
  let inside_64kt : Prop :=
    match wind_radii with
    | some wr => _check_inside_wind_radii_quadrilateral centroid nearest_point wr.kt64
    | none => False
  let inside_50kt : Prop :=
    match wind_radii with
    | some wr =>
      ¬ inside_64kt ∧ _check_inside_wind_radii_quadrilateral centroid nearest_point wr.kt50
    | none => False
  let inside_34kt : Prop :=
    match wind_radii with
    | some wr =>
      ¬ inside_64kt ∧ ¬ inside_50kt ∧
        _check_inside_wind_radii_quadrilateral centroid nearest_point wr.kt34
    | none => False
  let inside_eyewall : Prop :=
    centroid_dist_nm ≤ rmw_at_approach ∨
      pyIsClose centroid_dist_nm rmw_at_approach (1e-6)
  let mkResult : ℝ → String → WindResult := fun wind_at_centroid wind_source =>
    { max_wind_experienced_kt := wind_at_centroid
      center_wind_at_approach_kt := center_wind
      distance_to_envelope_edge_nm := max (edge_dist_nm - centroid_dist_nm) 0
      nearest_track_point_lat := nearest_point.2
      nearest_track_point_lon := nearest_point.1
      radius_max_wind_at_approach_nm := rmw_at_approach
      inside_eyewall := inside_eyewall
      wind_source := wind_source }
  if inside_eyewall then
    mkResult center_wind "rmw_plateau"
  else if inside_64kt then
    let decay_distance := max (centroid_dist_nm - rmw_at_approach) 0
    let decay_range := max (edge_dist_nm - rmw_at_approach) 0
    let wind :=
      if pyIsClose decay_range 0 (1e-9) then center_wind
      else
        let decay_fraction := min (max (decay_distance / decay_range) 0) 1
        max (center_wind - decay_fraction * (center_wind - 64)) 64
    mkResult wind "rmw_decay_to_64kt"
  else if inside_50kt then
    let decay_distance := max (centroid_dist_nm - rmw_at_approach) 0
    let decay_range := max (edge_dist_nm - rmw_at_approach) 0
    let wind :=
      if pyIsClose decay_range 0 (1e-9) then center_wind
      else
        let decay_fraction := min (max (decay_distance / decay_range) 0) 1
        max (center_wind - decay_fraction * (center_wind - 50)) 50
    mkResult wind "rmw_decay_to_50kt"
  else if inside_34kt then
    let decay_distance := max (centroid_dist_nm - rmw_at_approach) 0
    let decay_range := max (edge_dist_nm - rmw_at_approach) 0
    let wind :=
      if pyIsClose decay_range 0 (1e-9) then center_wind
      else
        let decay_fraction := min (max (decay_distance / decay_range) 0) 1
        max (center_wind - decay_fraction * (center_wind - 34)) 34
    mkResult wind "rmw_decay_to_34kt"
  else
    let decay_distance := max (centroid_dist_nm - rmw_at_approach) 0
    let decay_range := max (edge_dist_nm - rmw_at_approach) 0
    let wind :=
      if pyIsClose decay_range 0 (1e-9) then center_wind
      else
        let decay_fraction := min (max (decay_distance / decay_range) 0) 1
        center_wind - decay_fraction * (center_wind - 64)
    mkResult wind "rmw_decay_to_envelope"

/-! ## Duration pipeline — `duration_calculator.py`, lines 159-177 and 217-412 -/

/-- An external shapely polygon as seen by `calculate_duration_for_tract` for a
fixed query centroid: whether `poly.contains(centroid)` holds and the value of
`centroid.distance(poly.boundary)` (degrees).  The `try/except` fallbacks
around those two shapely calls cannot fire in this typed model. -/
structure ShapelyPoly where
  contains_centroid : Bool
  boundary_distance : Rat
deriving DecidableEq, Repr

/-- Embedding of `check_centroid_exposure_over_time` (duration_calculator.py,
lines 159-177) on the interpolated subset rows, whose column order is
`[lat, lon, wind_radii_64_ne, _se, _sw, _nw]`.  `contains_inst` is the external
shapely `polygon.contains(centroid)` predicate.  A NaN centre coordinate
produces a NaN geometry whose containment test is false; that case is modelled
as the null polygon. -/
def check_centroid_exposure_over_time (is_valid_poly contains_inst : PyGeometry → Bool)
    (interpolated_track : List TrackRow) : List ExposureEntry :=
  interpolated_track.map (fun row =>
    let polygon :=
      match row.vals.getD 0 none, row.vals.getD 1 none with
      | some lat, some lon =>
        create_instantaneous_wind_polygon is_valid_poly lat lon
          (row.vals.getD 2 none) (row.vals.getD 3 none)
          (row.vals.getD 4 none) (row.vals.getD 5 none) (1/50) 30
      | _, _ => none
    let is_inside :=
      match polygon with
      | some g => contains_inst g
      | none => false
    { date := row.date, is_inside := is_inside })

/-- Embedding of `identify_incomplete_wind_radii_boundary` (duration_calculator.py,
lines 217-251): the first and last row indices at which all four quadrant radii
are present and positive, or `none` when no row is complete. -/
def identify_incomplete_wind_radii_boundary (interpolated_track : List TrackRow) :
    Option (Nat × Nat) :=
  let complete_mask := interpolated_track.map (fun row =>
    decide (([row.vals.getD 2 none, row.vals.getD 3 none,
      row.vals.getD 4 none, row.vals.getD 5 none].filter validRadius).length = 4))
  if complete_mask.any (fun b => b) then
    some (complete_mask.findIdx (fun b => b),
      complete_mask.length - 1 - complete_mask.reverse.findIdx (fun b => b))
  else none

/-- Embedding of `_interpolate_duration_near_edge` (duration_calculator.py,
lines 339-412).  The edge buffer constant 0.2 degrees is `1/5`. -/
def _interpolate_duration_near_edge (envelope : ShapelyPoly)
    (interpolated_track : List TrackRow) (interval_minutes : Int) : DurationFeatures :=
  match identify_incomplete_wind_radii_boundary interpolated_track with
  | none =>
    { first_entry_time := none
      last_exit_time := none
      duration_in_envelope_hours := 0
      exposure_window_hours := 0
      continuous_exposure := false
      interpolated_points_count := interpolated_track.length
      duration_source := "edge_interpolation_failed" }
  | some (first_idx, last_idx) =>
    let distance_to_edge := envelope.boundary_distance
    let max_duration_hours : Rat :=
      (((last_idx : Rat) - (first_idx : Rat)) * (interval_minutes : Rat)) / 60
    let edge_buffer_deg : Rat := 1/5
    let interpolated_duration : Rat :=
      if edge_buffer_deg ≤ distance_to_edge then (interval_minutes : Rat) / 60
      else max_duration_hours * (distance_to_edge / edge_buffer_deg)
    let first_time := (interpolated_track.getD first_idx { date := 0, vals := [] }).date
    let last_time := (interpolated_track.getD last_idx { date := 0, vals := [] }).date
    { first_entry_time := some first_time
      last_exit_time := some last_time
      duration_in_envelope_hours := interpolated_duration
      exposure_window_hours := max_duration_hours
      continuous_exposure := false
      interpolated_points_count := interpolated_track.length
      duration_source := "edge_interpolation" }

/-- One raw storm-track row as consumed by `calculate_duration_for_tract`:
timestamp, centre position and the raw quadrant radii at the chosen threshold. -/
structure StormTrackRow where
  date : Int
  lat : Rat
  lon : Rat
  radii : RadiiRow
deriving DecidableEq, Repr

/-- The `track_subset` frame of `calculate_duration_for_tract` (lines 291-302):
imputation applied, then the columns `[date, lat, lon]` plus the four imputed
radii renamed to `wind_radii_64_*`, in that order. -/
def durationSubset (track_df : List StormTrackRow) : List TrackRow :=
  (track_df.zip (impute_missing_wind_radii (track_df.map (·.radii)))).map (fun p =>
    { date := p.1.date
      vals := [some p.1.lat, some p.1.lon, p.2.imputed.ne, p.2.imputed.se,
        p.2.imputed.sw, p.2.imputed.nw] })

/-- Embedding of `calculate_duration_for_tract` (duration_calculator.py, lines
254-336).  The `ValueError` for missing columns cannot arise in this typed
model (rows carry all required columns by construction).  The fallback polygon
selection follows lines 308-334: a supplied `coverage` is consulted first, and
the `envelope` is consulted only when `coverage is None`. -/
def calculate_duration_for_tract (is_valid_poly contains_inst : PyGeometry → Bool)
    (track_df : List StormTrackRow) (interval_minutes : Int)
    (envelope coverage : Option ShapelyPoly) : Except String DurationFeatures :=
  match interpolate_track_temporal
      { has_date_col := true, rows := durationSubset track_df } interval_minutes with
  | Except.error e => Except.error e
  | Except.ok interpolated =>
    let exposure := check_centroid_exposure_over_time is_valid_poly contains_inst interpolated
    let duration := calculate_duration_features exposure interval_minutes
    let candidate0 : Option ShapelyPoly :=
      match coverage with
      | some c => if c.contains_centroid then some c else none
      | none => none
    let candidate : Option ShapelyPoly :=
      match candidate0, coverage, envelope with
      | none, none, some e => if e.contains_centroid then some e else none
      | c, _, _ => c
    Except.ok
      (if duration.duration_in_envelope_hours = 0 then
        match candidate with
        | some cp => _interpolate_duration_near_edge cp interpolated interval_minutes
        | none => duration
      else duration)

end

/-! ## Spherical-geodesy lemmas

These support the destination/haversine round trip and the bearing range. -/

open Real

/-- Degree-radian round trip. -/
theorem deg2rad_rad2deg (r : ℝ) : deg2rad (rad2deg r) = r := by
  unfold deg2rad rad2deg
  field_simp

/-- `deg2rad` is additive over subtraction. -/
theorem deg2rad_sub (a b : ℝ) : deg2rad (a - b) = deg2rad a - deg2rad b := by
  unfold deg2rad
  ring

/-- The Earth radius constant is positive. -/
theorem R_NM_pos : (0 : ℝ) < R_NM := by
  unfold R_NM
  norm_num

/-- `cos (atan2 y x) * sqrt (x^2 + y^2) = x` — the cosine of the Python
`atan2` recovers the x-component. -/
theorem cos_atan2_mul_sqrt (y x : ℝ) :
    Real.cos (atan2 y x) * Real.sqrt (x ^ 2 + y ^ 2) = x := by
  unfold atan2
  by_cases hz : (Complex.mk x y) = 0
  · have hx : x = 0 := by
      have := congrArg Complex.re hz
      simpa using this
    have hy : y = 0 := by
      have := congrArg Complex.im hz
      simpa using this
    simp [hz, hx, hy]
  · have hcos := Complex.cos_arg hz
    have habs : Complex.abs (Complex.mk x y) = Real.sqrt (x ^ 2 + y ^ 2) := by
      rw [Complex.abs_apply, Complex.normSq_mk]
      ring_nf
    have hre : (Complex.mk x y).re = x := rfl
    rw [hcos, hre, habs]
    have hsq : Real.sqrt (x ^ 2 + y ^ 2) ≠ 0 → True := fun _ => trivial
    by_cases h0 : Real.sqrt (x ^ 2 + y ^ 2) = 0
    · have hxy : x ^ 2 + y ^ 2 = 0 := by
        have hnn : 0 ≤ x ^ 2 + y ^ 2 := by positivity
        have := Real.sqrt_eq_zero hnn
        rw [this] at h0
        exact h0
      have hx0 : x = 0 := by nlinarith [sq_nonneg x, sq_nonneg y]
      rw [h0, hx0]
      ring
    · field_simp
  -- equality of the two square-root expressions

/-- `atan2 (sin t) (cos t) = t` on `(-pi, pi]`. -/
theorem atan2_sin_cos (t : ℝ) (h1 : -Real.pi < t) (h2 : t ≤ Real.pi) :
    atan2 (Real.sin t) (Real.cos t) = t := by
  unfold atan2
  have : Complex.mk (Real.cos t) (Real.sin t) = Complex.cos t + Complex.sin t * Complex.I := by
    apply Complex.ext
    · simp [Complex.cos_ofReal_re]
    · simp [Complex.sin_ofReal_re]
  rw [this]
  exact Complex.arg_cos_add_sin_mul_I ⟨h1, h2⟩

/-- The destination-point latitude argument lies in `[-1, 1]`. -/
theorem s2_abs_le_one (φ δ θ : ℝ) :
    (Real.sin φ * Real.cos δ + Real.cos φ * Real.sin δ * Real.cos θ) ^ 2 ≤ 1 := by
  have h1 := Real.sin_sq_add_cos_sq φ
  have h2 := Real.sin_sq_add_cos_sq δ
  have h3 := Real.sin_sq_add_cos_sq θ
  have hident : (Real.sin φ * Real.cos δ + Real.cos φ * Real.sin δ * Real.cos θ) ^ 2 +
      (Real.sin φ * Real.sin δ - Real.cos φ * Real.cos δ * Real.cos θ) ^ 2 =
      (Real.sin φ ^ 2 + Real.cos φ ^ 2 * Real.cos θ ^ 2) *
        (Real.sin δ ^ 2 + Real.cos δ ^ 2) := by ring
  rw [h2, mul_one] at hident
  have hc : Real.cos φ ^ 2 * Real.cos θ ^ 2 + (Real.cos φ * Real.sin θ) ^ 2 =
      Real.cos φ ^ 2 := by linear_combination (Real.cos φ ^ 2) * h3
  linarith [sq_nonneg (Real.sin φ * Real.sin δ - Real.cos φ * Real.cos δ * Real.cos θ),
    sq_nonneg (Real.cos φ * Real.sin θ)]

/-- The algebraic core of the round trip: the squared norm of the
longitude-offset components. -/
theorem dest_xy_sq (φ δ θ s2 : ℝ)
    (hs2 : s2 = Real.sin φ * Real.cos δ + Real.cos φ * Real.sin δ * Real.cos θ) :
    (Real.cos δ - Real.sin φ * s2) ^ 2 + (Real.sin θ * Real.sin δ * Real.cos φ) ^ 2 =
      Real.cos φ ^ 2 * (1 - s2 ^ 2) := by
  subst hs2
  have h1 := Real.sin_sq_add_cos_sq φ
  have h2 := Real.sin_sq_add_cos_sq δ
  have h3 := Real.sin_sq_add_cos_sq θ
  linear_combination (Real.cos φ ^ 2) * h2 + (Real.cos φ ^ 2 * Real.sin δ ^ 2) * h3 -
    (Real.cos δ ^ 2 -
      (Real.sin φ * Real.cos δ + Real.cos φ * Real.sin δ * Real.cos θ) ^ 2) * h1

/-- Half-angle form of the haversine `a` value. -/
theorem haversine_a_eq (φ1 φ2 dLam : ℝ) :
    Real.sin ((φ2 - φ1) / 2) ^ 2 + Real.cos φ1 * Real.cos φ2 * Real.sin (dLam / 2) ^ 2 =
      (1 - (Real.cos φ1 * Real.cos φ2 * Real.cos dLam + Real.sin φ1 * Real.sin φ2)) / 2 := by
  have hh1 : Real.sin ((φ2 - φ1) / 2) ^ 2 = 1 / 2 - Real.cos (φ2 - φ1) / 2 := by
    have := Real.sin_sq_eq_half_sub ((φ2 - φ1) / 2)
    rw [this]
    ring_nf
  have hh2 : Real.sin (dLam / 2) ^ 2 = 1 / 2 - Real.cos dLam / 2 := by
    have := Real.sin_sq_eq_half_sub (dLam / 2)
    rw [this]
    ring_nf
  rw [hh1, hh2, Real.cos_sub]
  ring

/-- The haversine `a` value between a start point and the destination point, in
radians: it collapses to the half-angle form of the angular distance. -/
theorem roundtrip_a (φ1 δ θ : ℝ) (hc : 0 ≤ Real.cos φ1) :
    Real.sin ((Real.arcsin (Real.sin φ1 * Real.cos δ + Real.cos φ1 * Real.sin δ * Real.cos θ) -
        φ1) / 2) ^ 2 +
      Real.cos φ1 *
        Real.cos (Real.arcsin (Real.sin φ1 * Real.cos δ + Real.cos φ1 * Real.sin δ * Real.cos θ)) *
        Real.sin ((atan2 (Real.sin θ * Real.sin δ * Real.cos φ1)
          (Real.cos δ - Real.sin φ1 *
            Real.sin (Real.arcsin
              (Real.sin φ1 * Real.cos δ + Real.cos φ1 * Real.sin δ * Real.cos θ)))) / 2) ^ 2 =
      (1 - Real.cos δ) / 2 := by
  set s2 := Real.sin φ1 * Real.cos δ + Real.cos φ1 * Real.sin δ * Real.cos θ with hs2def
  have hb : s2 ^ 2 ≤ 1 := s2_abs_le_one φ1 δ θ
  have habs1 : |s2| ≤ 1 := by
    rw [← Real.sqrt_one]
    rw [show |s2| = Real.sqrt (s2 ^ 2) from (Real.sqrt_sq_eq_abs s2).symm]
    exact Real.sqrt_le_sqrt (by linarith)
  have hbl : -1 ≤ s2 := (abs_le.mp habs1).1
  have hbr : s2 ≤ 1 := (abs_le.mp habs1).2
  have hsin2 : Real.sin (Real.arcsin s2) = s2 := Real.sin_arcsin hbl hbr
  have hcos2 : Real.cos (Real.arcsin s2) = Real.sqrt (1 - s2 ^ 2) := Real.cos_arcsin s2
  rw [hsin2]
  have hxy : (Real.cos δ - Real.sin φ1 * s2) ^ 2 +
      (Real.sin θ * Real.sin δ * Real.cos φ1) ^ 2 =
      Real.cos φ1 ^ 2 * (1 - s2 ^ 2) := dest_xy_sq φ1 δ θ s2 hs2def
  have habs2 : Real.cos φ1 * Real.cos (Real.arcsin s2) =
      Real.sqrt ((Real.cos δ - Real.sin φ1 * s2) ^ 2 +
        (Real.sin θ * Real.sin δ * Real.cos φ1) ^ 2) := by
    rw [hxy, hcos2]
    rw [show Real.cos φ1 ^ 2 * (1 - s2 ^ 2) =
      Real.cos φ1 ^ 2 * (1 - s2 ^ 2) from rfl]
    rw [Real.sqrt_mul (by positivity) (1 - s2 ^ 2)]
    rw [Real.sqrt_sq hc]
  have hkey : Real.cos φ1 * Real.cos (Real.arcsin s2) *
      Real.cos (atan2 (Real.sin θ * Real.sin δ * Real.cos φ1)
        (Real.cos δ - Real.sin φ1 * s2)) = Real.cos δ - Real.sin φ1 * s2 := by
    rw [habs2, mul_comm]
    exact cos_atan2_mul_sqrt (Real.sin θ * Real.sin δ * Real.cos φ1)
      (Real.cos δ - Real.sin φ1 * s2)
  rw [haversine_a_eq φ1 (Real.arcsin s2)
    (atan2 (Real.sin θ * Real.sin δ * Real.cos φ1) (Real.cos δ - Real.sin φ1 * s2))]
  rw [hkey, hsin2]
  rw [hs2def]
  ring

/-- Half-angle identity for the squared sine. -/
theorem half_angle_sin_sq (t : ℝ) : Real.sin (t / 2) ^ 2 = (1 - Real.cos t) / 2 := by
  rw [Real.sin_sq_eq_half_sub]
  rw [show 2 * (t / 2) = t by ring]
  ring

/-- The radian latitude of an in-range degree latitude lies in
`[-pi/2, pi/2]`. -/
theorem deg2rad_lat_mem (lat : ℝ) (hlat1 : -90 ≤ lat) (hlat2 : lat ≤ 90) :
    deg2rad lat ∈ Set.Icc (-(Real.pi / 2)) (Real.pi / 2) := by
  unfold deg2rad
  constructor
  · nlinarith [Real.pi_pos]
  · nlinarith [Real.pi_pos]

/-- Round trip for the `asin`-form haversine `_haversine_nm`: the distance from
a start point to the computed destination recovers the travelled distance
exactly, for distances up to half the great circle. -/
theorem hav_asin_roundtrip (lat lon bearing d : ℝ)
    (hlat1 : -90 ≤ lat) (hlat2 : lat ≤ 90) (hd0 : 0 ≤ d) (hdpi : d ≤ Real.pi * R_NM) :
    _haversine_nm lat lon (calculate_destination_point lat lon bearing d).2
      (calculate_destination_point lat lon bearing d).1 = d := by
  have hR := R_NM_pos
  have hc : 0 ≤ Real.cos (deg2rad lat) :=
    Real.cos_nonneg_of_mem_Icc (deg2rad_lat_mem lat hlat1 hlat2)
  have hδ0 : 0 ≤ d / R_NM := by positivity
  have hδpi : d / R_NM ≤ Real.pi := by
    rw [div_le_iff₀ hR]
    linarith
  unfold _haversine_nm calculate_destination_point
  simp only [deg2rad_rad2deg, add_sub_cancel_left]
  rw [roundtrip_a (deg2rad lat) (d / R_NM) (deg2rad bearing) hc]
  rw [← half_angle_sin_sq (d / R_NM)]
  have hsin_nonneg : 0 ≤ Real.sin (d / R_NM / 2) := by
    apply Real.sin_nonneg_of_nonneg_of_le_pi
    · positivity
    · linarith [Real.pi_pos]
  rw [Real.sqrt_sq hsin_nonneg]
  rw [Real.arcsin_sin (by linarith [Real.pi_pos]) (by linarith)]
  field_simp
  ring

/-- Round trip for the `atan2`-form haversine `haversine_distance`
(geometry_utils.py): same statement for the shared-utilities copy. -/
theorem hav_atan2_roundtrip (lat lon bearing d : ℝ)
    (hlat1 : -90 ≤ lat) (hlat2 : lat ≤ 90) (hd0 : 0 ≤ d) (hdpi : d ≤ Real.pi * R_NM) :
    haversine_distance lat lon (calculate_destination_point lat lon bearing d).2
      (calculate_destination_point lat lon bearing d).1 = d := by
  have hR := R_NM_pos
  have hc : 0 ≤ Real.cos (deg2rad lat) :=
    Real.cos_nonneg_of_mem_Icc (deg2rad_lat_mem lat hlat1 hlat2)
  have hδ0 : 0 ≤ d / R_NM := by positivity
  have hδpi : d / R_NM ≤ Real.pi := by
    rw [div_le_iff₀ hR]
    linarith
  unfold haversine_distance calculate_destination_point
  simp only [deg2rad_rad2deg, deg2rad_sub, add_sub_cancel_left]
  rw [roundtrip_a (deg2rad lat) (d / R_NM) (deg2rad bearing) hc]
  rw [← half_angle_sin_sq (d / R_NM)]
  have hsin_nonneg : 0 ≤ Real.sin (d / R_NM / 2) := by
    apply Real.sin_nonneg_of_nonneg_of_le_pi
    · positivity
    · linarith [Real.pi_pos]
  have hcos_half : 0 ≤ Real.cos (d / R_NM / 2) := by
    apply Real.cos_nonneg_of_mem_Icc
    constructor
    · linarith [Real.pi_pos]
    · linarith
  have h1a : 1 - Real.sin (d / R_NM / 2) ^ 2 = Real.cos (d / R_NM / 2) ^ 2 := by
    linarith [Real.sin_sq_add_cos_sq (d / R_NM / 2)]
  rw [h1a, Real.sqrt_sq hsin_nonneg, Real.sqrt_sq hcos_half]
  rw [atan2_sin_cos (d / R_NM / 2) (by linarith [Real.pi_pos]) (by linarith [Real.pi_pos])]
  field_simp
  ring

/-- `pymod a b` lies in `[0, b)` for a positive modulus. -/
theorem pymod_mem (a b : ℝ) (hb : 0 < b) : 0 ≤ pymod a b ∧ pymod a b < b := by
  unfold pymod
  have hbne : b ≠ 0 := ne_of_gt hb
  have ha : (a / b) * b = a := div_mul_cancel₀ a hbne
  have h1 := Int.floor_le (a / b)
  have h2 := Int.lt_floor_add_one (a / b)
  constructor
  · nlinarith
  · nlinarith

/-- Evaluation rule for `pymod` when the quotient floor is known. -/
theorem pymod_eval (a b : ℝ) (k : ℤ) (hb : 0 < b)
    (h1 : (k : ℝ) * b ≤ a) (h2 : a < ((k : ℝ) + 1) * b) :
    pymod a b = a - b * k := by
  unfold pymod
  have hfl : ⌊a / b⌋ = k := by
    apply Int.floor_eq_iff.mpr
    constructor
    · rw [le_div_iff₀ hb]
      linarith
    · rw [div_lt_iff₀ hb]
      linarith
  rw [hfl]

/-- The initial bearing is always in `[0, 360)`. -/
theorem calculate_bearing_mem (lat1 lon1 lat2 lon2 : ℝ) :
    0 ≤ calculate_bearing lat1 lon1 lat2 lon2 ∧
      calculate_bearing lat1 lon1 lat2 lon2 < 360 := by
  unfold calculate_bearing
  exact pymod_mem _ 360 (by norm_num)

/-- `rad2deg` of a rational multiple of `pi`, used on concrete bearings. -/
theorem rad2deg_pi_div_four : rad2deg (Real.pi / 4) = 45 := by
  unfold rad2deg
  field_simp
  ring

/-- `rad2deg (-(pi/2)) = -90`. -/
theorem rad2deg_neg_pi_div_two : rad2deg (-(Real.pi / 2)) = -90 := by
  unfold rad2deg
  field_simp
  ring

/-- `rad2deg (pi/2) = 90`. -/
theorem rad2deg_pi_div_two : rad2deg (Real.pi / 2) = 90 := by
  unfold rad2deg
  field_simp
  ring

/-- The bearing from the origin to the point at latitude 45, longitude 90 is
exactly 45 degrees. -/
theorem bearing_origin_4590 : calculate_bearing 0 0 45 90 = 45 := by
  simp only [calculate_bearing]
  have h0 : deg2rad 0 = 0 := by
    unfold deg2rad
    ring
  have h45 : deg2rad 45 = Real.pi / 4 := by
    unfold deg2rad
    ring
  have h90 : deg2rad (90 - 0) = Real.pi / 2 := by
    unfold deg2rad
    ring
  rw [h0, h45, h90]
  have hx : Real.sin (Real.pi / 2) * Real.cos (Real.pi / 4) = Real.sin (Real.pi / 4) := by
    rw [Real.sin_pi_div_two, one_mul, Real.cos_pi_div_four, Real.sin_pi_div_four]
  have hy : Real.cos 0 * Real.sin (Real.pi / 4) -
      Real.sin 0 * Real.cos (Real.pi / 4) * Real.cos (Real.pi / 2) =
      Real.cos (Real.pi / 4) := by
    rw [Real.cos_zero, Real.sin_zero, one_mul, Real.sin_pi_div_four, Real.cos_pi_div_four]
    ring
  rw [hx, hy]
  rw [atan2_sin_cos (Real.pi / 4) (by linarith [Real.pi_pos]) (by linarith [Real.pi_pos])]
  rw [rad2deg_pi_div_four]
  rw [pymod_eval (45 + 360) 360 1 (by norm_num) (by norm_num) (by norm_num)]
  norm_num

/-- The bearing back from (45, 90) to the origin is exactly 270 degrees — not
225 = 45 + 180. -/
theorem bearing_4590_origin : calculate_bearing 45 90 0 0 = 270 := by
  simp only [calculate_bearing]
  have h0 : deg2rad 0 = 0 := by
    unfold deg2rad
    ring
  have h45 : deg2rad 45 = Real.pi / 4 := by
    unfold deg2rad
    ring
  have h90 : deg2rad (0 - 90) = -(Real.pi / 2) := by
    unfold deg2rad
    ring
  rw [h0, h45, h90]
  have hx : Real.sin (-(Real.pi / 2)) * Real.cos 0 = Real.sin (-(Real.pi / 2)) := by
    rw [Real.cos_zero, mul_one]
  have hy : Real.cos (Real.pi / 4) * Real.sin 0 -
      Real.sin (Real.pi / 4) * Real.cos 0 * Real.cos (-(Real.pi / 2)) =
      Real.cos (-(Real.pi / 2)) := by
    rw [Real.sin_zero, Real.cos_neg, Real.cos_pi_div_two]
    ring
  rw [hx, hy]
  rw [atan2_sin_cos (-(Real.pi / 2)) (by linarith [Real.pi_pos]) (by linarith [Real.pi_pos])]
  rw [rad2deg_neg_pi_div_two]
  rw [pymod_eval (-90 + 360) 360 0 (by norm_num) (by norm_num) (by norm_num)]
  norm_num

/-- An eastward bearing along the equator: two equator points whose longitude
difference is in (0, 180) give initial bearing 90. -/
theorem bearing_equator_east (e1 e2 : ℝ) (h1 : 0 < e2 - e1) (h2 : e2 - e1 < 180) :
    calculate_bearing 0 e1 0 e2 = 90 := by
  simp only [calculate_bearing]
  have h0 : deg2rad 0 = 0 := by
    unfold deg2rad
    ring
  have hdpos : 0 < deg2rad (e2 - e1) := by
    unfold deg2rad
    nlinarith [Real.pi_pos]
  have hdlt : deg2rad (e2 - e1) < Real.pi := by
    unfold deg2rad
    nlinarith [Real.pi_pos]
  rw [h0]
  have hx : Real.sin (deg2rad (e2 - e1)) * Real.cos 0 = Real.sin (deg2rad (e2 - e1)) := by
    rw [Real.cos_zero, mul_one]
  have hy : Real.cos 0 * Real.sin 0 -
      Real.sin 0 * Real.cos 0 * Real.cos (deg2rad (e2 - e1)) = 0 := by
    rw [Real.sin_zero]
    ring
  rw [hx, hy]
  have harg : atan2 (Real.sin (deg2rad (e2 - e1))) 0 = Real.pi / 2 := by
    unfold atan2
    apply Complex.arg_eq_pi_div_two_iff.mpr
    exact ⟨rfl, Real.sin_pos_of_pos_of_lt_pi hdpos hdlt⟩
  rw [harg, rad2deg_pi_div_two]
  rw [pymod_eval (90 + 360) 360 1 (by norm_num) (by norm_num) (by norm_num)]
  norm_num

/-- The reverse bearing along the equator: swapping the two points gives 270,
exactly 180 degrees away from 90. -/
theorem bearing_equator_west (e1 e2 : ℝ) (h1 : 0 < e2 - e1) (h2 : e2 - e1 < 180) :
    calculate_bearing 0 e2 0 e1 = 270 := by
  simp only [calculate_bearing]
  have h0 : deg2rad 0 = 0 := by
    unfold deg2rad
    ring
  have hdneg : deg2rad (e1 - e2) < 0 := by
    unfold deg2rad
    nlinarith [Real.pi_pos]
  have hdgt : -Real.pi < deg2rad (e1 - e2) := by
    unfold deg2rad
    nlinarith [Real.pi_pos]
  rw [h0]
  have hx : Real.sin (deg2rad (e1 - e2)) * Real.cos 0 = Real.sin (deg2rad (e1 - e2)) := by
    rw [Real.cos_zero, mul_one]
  have hy : Real.cos 0 * Real.sin 0 -
      Real.sin 0 * Real.cos 0 * Real.cos (deg2rad (e1 - e2)) = 0 := by
    rw [Real.sin_zero]
    ring
  rw [hx, hy]
  have hsinneg : Real.sin (deg2rad (e1 - e2)) < 0 := by
    have := Real.sin_pos_of_pos_of_lt_pi (neg_pos.mpr hdneg) (by linarith)
    rw [Real.sin_neg] at this
    linarith
  have harg : atan2 (Real.sin (deg2rad (e1 - e2))) 0 = -(Real.pi / 2) := by
    unfold atan2
    apply Complex.arg_eq_neg_pi_div_two_iff.mpr
    exact ⟨rfl, hsinneg⟩
  rw [harg, rad2deg_neg_pi_div_two]
  rw [pymod_eval (-90 + 360) 360 0 (by norm_num) (by norm_num) (by norm_num)]
  norm_num

/-- At a distance of a full great circle, the destination point coincides with
the start, so the haversine distance back is 0, not the travelled distance. -/
theorem roundtrip_full_circle :
    haversine_distance 0 0 (calculate_destination_point 0 0 0 (2 * Real.pi * R_NM)).2
      (calculate_destination_point 0 0 0 (2 * Real.pi * R_NM)).1 = 0 := by
  have h0 : deg2rad 0 = 0 := by
    unfold deg2rad
    ring
  have hR : (0 : ℝ) < R_NM := R_NM_pos
  have hdelta : 2 * Real.pi * R_NM / R_NM = 2 * Real.pi := by
    field_simp
  have harg : atan2 0 1 = 0 := by
    unfold atan2
    have hone : Complex.mk 1 0 = 1 := by
      apply Complex.ext <;> simp
    rw [hone, Complex.arg_one]
  have hdest : calculate_destination_point 0 0 0 (2 * Real.pi * R_NM) = (0, 0) := by
    simp only [calculate_destination_point]
    rw [h0, hdelta]
    simp only [Real.sin_zero, Real.cos_zero, Real.sin_two_pi, Real.cos_two_pi, zero_mul,
      mul_zero, mul_one, one_mul, zero_add, add_zero, sub_zero, Real.arcsin_zero]
    rw [harg]
    simp [rad2deg]
  rw [hdest]
  simp only [haversine_distance, sub_zero]
  rw [h0]
  norm_num [Real.sin_zero, Real.cos_zero, Real.sqrt_zero, Real.sqrt_one]
  exact Or.inr harg

/-! ## Wind-model branch lemmas (`calculate_max_wind_experienced`) -/

/-- The plateau branch: whenever the centroid distance is at most the clamped
RMW, the model returns the center wind, marks the eyewall, and reports the
`rmw_plateau` source — for any wind-radii dictionary. -/
theorem wind_plateau (centroid np : ℝ × ℝ) (cw rmwi e : ℝ) (wr : Option WindRadiiDict)
    (h : _haversine_nm np.2 np.1 centroid.2 centroid.1 ≤ max rmwi 0) :
    (calculate_max_wind_experienced centroid np cw rmwi e wr).max_wind_experienced_kt = cw ∧
      (calculate_max_wind_experienced centroid np cw rmwi e wr).inside_eyewall ∧
      (calculate_max_wind_experienced centroid np cw rmwi e wr).wind_source = "rmw_plateau" := by
  unfold calculate_max_wind_experienced
  rw [if_pos (Or.inl h)]
  exact ⟨rfl, Or.inl h, rfl⟩

/-- With no wind-radii dictionary and the centroid outside the eyewall, the
model takes the envelope-decay branch; when the decay range is not close to
zero, the wind is the linear decay from center wind to 64 kt. -/
theorem wind_envelope_none (centroid np : ℝ × ℝ) (cw rmwi e : ℝ)
    (hout : ¬ (_haversine_nm np.2 np.1 centroid.2 centroid.1 ≤ max rmwi 0 ∨
      pyIsClose (_haversine_nm np.2 np.1 centroid.2 centroid.1) (max rmwi 0) (1e-6)))
    (hrange : ¬ pyIsClose (max (e - max rmwi 0) 0) 0 (1e-9)) :
    (calculate_max_wind_experienced centroid np cw rmwi e none).max_wind_experienced_kt =
      cw - min (max ((max (_haversine_nm np.2 np.1 centroid.2 centroid.1 - max rmwi 0) 0) /
        (max (e - max rmwi 0) 0)) 0) 1 * (cw - 64) ∧
      (calculate_max_wind_experienced centroid np cw rmwi e none).wind_source =
        "rmw_decay_to_envelope" := by
  simp only [calculate_max_wind_experienced]
  rw [if_neg hout]
  simp only [not_false_iff, and_false, false_and, if_false]
  rw [if_neg hrange]
  exact ⟨rfl, trivial⟩

/-! ## Generic list facts used by the duration-feature proofs -/

/-- No `true` occurs strictly before the first index found by `findIdx`. -/
theorem count_true_take_findIdx (l : List Bool) :
    (l.take (l.findIdx (fun b => b))).count true = 0 := by
  induction l with
  | nil => simp
  | cons a t ih =>
    cases a with
    | true => simp [List.findIdx_cons]
    | false => simpa [List.findIdx_cons] using ih

/-- No `true` occurs strictly after the last `true` (located through the
reversed `findIdx`). -/
theorem count_true_drop_rev (l : List Bool) :
    (l.drop (l.length - l.reverse.findIdx (fun b => b))).count true = 0 := by
  have h := count_true_take_findIdx l.reverse
  have hrev : (l.reverse.take (l.reverse.findIdx (fun b => b))).reverse =
      l.drop (l.length - l.reverse.findIdx (fun b => b)) := by
    rw [List.reverse_take]
    simp
  rw [← hrev, List.count_reverse]
  exact h

/-- With at least one `true` present, the first and last `true` positions are
coherent: `findIdx + reverse-findIdx < length`. -/
theorem findIdx_add_rev_findIdx_lt (l : List Bool) (h : l.any (fun b => b) = true) :
    l.findIdx (fun b => b) + l.reverse.findIdx (fun b => b) < l.length := by
  have hex : ∃ x ∈ l, (fun b => b) x = true := by
    simpa [List.any_eq_true] using h
  have hexr : ∃ x ∈ l.reverse, (fun b => b) x = true := by
    simpa [List.any_eq_true] using h
  have hr : l.reverse.findIdx (fun b => b) < l.length := by
    simpa using List.findIdx_lt_length_of_exists hexr
  have hrr : l.reverse.findIdx (fun b => b) < l.reverse.length := by
    simpa using hr
  have hgetr : l.reverse[l.reverse.findIdx (fun b => b)] = true :=
    @List.findIdx_getElem _ (fun b => b) l.reverse hrr
  by_contra hcon
  push_neg at hcon
  have hlt : l.length - 1 - l.reverse.findIdx (fun b => b) < l.findIdx (fun b => b) := by
    omega
  have hfalse := List.not_of_lt_findIdx hlt
  have hlen0 : l.length - 1 - l.reverse.findIdx (fun b => b) < l.length := by
    omega
  have hgetr2 : l.reverse[l.reverse.findIdx (fun b => b)] =
      l[l.length - 1 - l.reverse.findIdx (fun b => b)] := by
    rw [List.getElem_reverse]
  rw [hgetr2] at hgetr
  simp [hgetr] at hfalse

/-- The total count of `true` steps is bounded by the width of the inside run. -/
theorem count_true_le_run (l : List Bool) (h : l.any (fun b => b) = true) :
    l.count true ≤ l.length - l.findIdx (fun b => b) - l.reverse.findIdx (fun b => b) := by
  set f := l.findIdx (fun b => b) with hf
  set r := l.reverse.findIdx (fun b => b) with hr
  have hfr : f + r < l.length := findIdx_add_rev_findIdx_lt l h
  have hsplit : l.count true = (l.take (l.length - r)).count true := by
    conv_lhs => rw [← List.take_append_drop (l.length - r) l]
    rw [List.count_append, count_true_drop_rev l]
    omega
  have hsplit2 : (l.take (l.length - r)).count true =
      ((l.take (l.length - r)).take f).count true +
        ((l.take (l.length - r)).drop f).count true := by
    conv_lhs => rw [← List.take_append_drop f (l.take (l.length - r))]
    rw [List.count_append]
  have htt : (l.take (l.length - r)).take f = l.take f := by
    rw [List.take_take]
    congr 1
    omega
  rw [htt, count_true_take_findIdx l] at hsplit2
  have hlen : ((l.take (l.length - r)).drop f).count true ≤ l.length - r - f := by
    have h1 := List.count_le_length true ((l.take (l.length - r)).drop f)
    have h2 : ((l.take (l.length - r)).drop f).length = l.length - r - f := by
      rw [List.length_drop, List.length_take]
      omega
    omega
  omega

/-! ## Claim C1 — duration bounds and continuity -/

/-- Field values of `calculate_duration_features` on a timeline with at least
one inside step. -/
theorem cdf_fields_of_any (exposure_timeline : List ExposureEntry) (interval_minutes : Int)
    (h : (exposure_timeline.map (·.is_inside)).any (fun b => b) = true) :
    (calculate_duration_features exposure_timeline interval_minutes).duration_in_envelope_hours =
      ((exposure_timeline.map (·.is_inside)).count true : Rat) * ((interval_minutes : Rat) / 60) ∧
    (calculate_duration_features exposure_timeline interval_minutes).exposure_window_hours =
      (((lastInsideIdx exposure_timeline : Rat) - (firstInsideIdx exposure_timeline : Rat)) *
        (interval_minutes : Rat)) / 60 ∧
    (calculate_duration_features exposure_timeline interval_minutes).continuous_exposure =
      (((exposure_timeline.map (·.is_inside)).drop (firstInsideIdx exposure_timeline)).take
        (lastInsideIdx exposure_timeline + 1 - firstInsideIdx exposure_timeline)).all
          (fun b => b) := by
  simp only [calculate_duration_features, firstInsideIdx, lastInsideIdx]
  rw [if_pos h]
  exact ⟨rfl, by simp [List.length_map], by simp [List.length_map]⟩

/-- Field values of `calculate_duration_features` on a timeline with no inside
step. -/
theorem cdf_fields_of_none (exposure_timeline : List ExposureEntry) (interval_minutes : Int)
    (h : ¬ (exposure_timeline.map (·.is_inside)).any (fun b => b) = true) :
    (calculate_duration_features exposure_timeline interval_minutes).duration_in_envelope_hours = 0 ∧
    (calculate_duration_features exposure_timeline interval_minutes).exposure_window_hours = 0 ∧
    (calculate_duration_features exposure_timeline interval_minutes).continuous_exposure = false := by
  simp only [calculate_duration_features]
  rw [if_neg h]
  exact ⟨rfl, rfl, rfl⟩

/-- Claim C1 (amended): `duration_in_envelope_hours` is nonnegative and exceeds
`exposure_window_hours` by at most one interval (`interval_minutes / 60` hours),
and `continuous_exposure` is true only if every step between the first and last
inside index is inside, in which case the duration equals the full inside-run
length times the interval. -/
theorem claim_C1_duration_bounds (exposure_timeline : List ExposureEntry)
    (interval_minutes : Int) (hm : 0 ≤ interval_minutes) :
    0 ≤ (calculate_duration_features exposure_timeline interval_minutes).duration_in_envelope_hours ∧
    (calculate_duration_features exposure_timeline interval_minutes).duration_in_envelope_hours ≤
      (calculate_duration_features exposure_timeline interval_minutes).exposure_window_hours +
        (interval_minutes : Rat) / 60 ∧
    ((calculate_duration_features exposure_timeline interval_minutes).continuous_exposure = true →
      (∀ j e, firstInsideIdx exposure_timeline ≤ j → j ≤ lastInsideIdx exposure_timeline →
        exposure_timeline[j]? = some e → e.is_inside = true) ∧
      (calculate_duration_features exposure_timeline interval_minutes).duration_in_envelope_hours =
        ((lastInsideIdx exposure_timeline - firstInsideIdx exposure_timeline + 1 : Nat) : Rat) *
          ((interval_minutes : Rat) / 60)) := by
  have hm60 : (0 : Rat) ≤ (interval_minutes : Rat) / 60 := by positivity
  by_cases hany : (exposure_timeline.map (·.is_inside)).any (fun b => b) = true
  · obtain ⟨hd, hw, hc⟩ := cdf_fields_of_any exposure_timeline interval_minutes hany
    set l := exposure_timeline.map (·.is_inside) with hl
    set f := firstInsideIdx exposure_timeline with hfdef
    set r := l.reverse.findIdx (fun b => b) with hrdef
    have hfl : f = l.findIdx (fun b => b) := by
      simp [hfdef, firstInsideIdx, hl]
    have hlast : lastInsideIdx exposure_timeline = l.length - 1 - r := by
      simp [lastInsideIdx, hl, hrdef, List.length_map]
    have hfr : f + r < l.length := by
      rw [hfl, hrdef]
      exact findIdx_add_rev_findIdx_lt l hany
    have hcount : l.count true ≤ l.length - f - r := by
      rw [hfl, hrdef]
      exact count_true_le_run l hany
    refine ⟨?_, ?_, ?_⟩
    · rw [hd]
      positivity
    · rw [hd, hw, hlast]
      have hcast : ((l.length - 1 - r : Nat) : Rat) - (f : Rat) =
          ((l.length - 1 - r - f : Nat) : Rat) := by
        have hge : f ≤ l.length - 1 - r := by omega
        exact (Nat.cast_sub hge).symm
      rw [hcast]
      have hstep : ((l.length - 1 - r - f : Nat) : Rat) * (interval_minutes : Rat) / 60 +
          (interval_minutes : Rat) / 60 =
          ((l.length - 1 - r - f + 1 : Nat) : Rat) * ((interval_minutes : Rat) / 60) := by
        push_cast
        ring
      rw [hstep]
      have hcle : ((l.count true : Nat) : Rat) ≤ ((l.length - 1 - r - f + 1 : Nat) : Rat) := by
        exact_mod_cast (by omega : l.count true ≤ l.length - 1 - r - f + 1)
      exact mul_le_mul_of_nonneg_right hcle hm60
    · intro hcont
      rw [hc] at hcont
      rw [hlast] at hcont
      have hall := List.all_eq_true.mp hcont
      constructor
      · intro j e hjf hjl hje
        obtain ⟨hjlen, hjget⟩ := List.getElem?_eq_some_iff.mp hje
        rw [hlast] at hjl
        have hjf2 : f ≤ j := hjf
        have hjlen2 : j < l.length := by
          rw [hl, List.length_map]
          exact hjlen
        have hmem : l[j] ∈ (l.drop f).take (l.length - 1 - r + 1 - f) := by
          have hk : j - f < ((l.drop f).take (l.length - 1 - r + 1 - f)).length := by
            rw [List.length_take, List.length_drop]
            omega
          have : ((l.drop f).take (l.length - 1 - r + 1 - f))[j - f] = l[j] := by
            rw [List.getElem_take, List.getElem_drop]
            congr 1
            omega
          rw [← this]
          exact List.getElem_mem hk
        have hval := hall _ hmem
        have hmape : l[j] = e.is_inside := by
          simp only [hl, List.getElem_map, hjget]
        rw [← hmape]
        exact hval
      · rw [hd, hlast]
        have hcnt : l.count true = l.length - 1 - r + 1 - f := by
          have hsplit : l.count true = ((l.drop f).count true) := by
            conv_lhs => rw [← List.take_append_drop f l, List.count_append]
            rw [hfl, count_true_take_findIdx l]
            omega
          have hsplit2 : (l.drop f).count true =
              ((l.drop f).take (l.length - 1 - r + 1 - f)).count true +
                ((l.drop f).drop (l.length - 1 - r + 1 - f)).count true := by
            conv_lhs => rw [← List.take_append_drop (l.length - 1 - r + 1 - f) (l.drop f),
              List.count_append]
          have hdd : (l.drop f).drop (l.length - 1 - r + 1 - f) =
              l.drop (l.length - r) := by
            rw [List.drop_drop]
            congr 1
            omega
          have hzero2 : (l.drop (l.length - r)).count true = 0 := count_true_drop_rev l
          have hseg : ((l.drop f).take (l.length - 1 - r + 1 - f)).count true =
              ((l.drop f).take (l.length - 1 - r + 1 - f)).length := by
            rw [List.count_eq_length]
            intro b hb
            exact (hall b hb).symm
          have hseglen : ((l.drop f).take (l.length - 1 - r + 1 - f)).length =
              l.length - 1 - r + 1 - f := by
            rw [List.length_take, List.length_drop]
            omega
          omega
        rw [hcnt]
        congr 1
        exact_mod_cast (by omega : l.length - 1 - r + 1 - f = l.length - 1 - r - f + 1)
  · obtain ⟨hd, hw, hc⟩ := cdf_fields_of_none exposure_timeline interval_minutes hany
    refine ⟨by rw [hd], by rw [hd, hw]; simpa using hm60, ?_⟩
    intro hcont
    rw [hc] at hcont
    exact absurd hcont (by simp)

/-- Claim C1, counterexample: a timeline with a single inside step has
`duration_in_envelope_hours = 1/4` hour but `exposure_window_hours = 0`, so the
claimed bound `duration_in_envelope_hours ≤ exposure_window_hours` is false. -/
theorem claim_C1_counterexample :
    ¬ ((calculate_duration_features [{ date := 0, is_inside := true }] 15).duration_in_envelope_hours ≤
      (calculate_duration_features [{ date := 0, is_inside := true }] 15).exposure_window_hours) := by
  norm_num [calculate_duration_features, List.findIdx_cons]

/-- Witness for claim C1 at the one-step timeline. -/
theorem claim_C1_duration_bounds_witness :
    (0 : Int) ≤ 15 ∧
    (0 ≤ (calculate_duration_features [{ date := 0, is_inside := true }] 15).duration_in_envelope_hours ∧
    (calculate_duration_features [{ date := 0, is_inside := true }] 15).duration_in_envelope_hours ≤
      (calculate_duration_features [{ date := 0, is_inside := true }] 15).exposure_window_hours +
        ((15 : Int) : Rat) / 60 ∧
    ((calculate_duration_features [{ date := 0, is_inside := true }] 15).continuous_exposure = true →
      (∀ j e, firstInsideIdx [{ date := 0, is_inside := true }] ≤ j →
        j ≤ lastInsideIdx [{ date := 0, is_inside := true }] →
        ([{ date := 0, is_inside := true }] : List ExposureEntry)[j]? = some e →
          e.is_inside = true) ∧
      (calculate_duration_features [{ date := 0, is_inside := true }] 15).duration_in_envelope_hours =
        ((lastInsideIdx [{ date := 0, is_inside := true }] -
          firstInsideIdx [{ date := 0, is_inside := true }] + 1 : Nat) : Rat) *
          (((15 : Int) : Rat) / 60))) :=
  ⟨by decide, claim_C1_duration_bounds [{ date := 0, is_inside := true }] 15 (by decide)⟩

/-! ## Lead-time helper lemmas -/

/-- A left fold of `min` over dates never exceeds its initial value. -/
theorem foldl_min_le_init (l : List LeadTimeRow) (a : Int) :
    l.foldl (fun m s => min m s.date) a ≤ a := by
  induction l generalizing a with
  | nil => simp
  | cons h t ih =>
    simp only [List.foldl_cons]
    exact (ih (min a h.date)).trans (min_le_left _ _)

/-- A left fold of `min` over dates is a lower bound of every date in the list. -/
theorem foldl_min_le_mem (l : List LeadTimeRow) (a : Int) :
    ∀ s ∈ l, l.foldl (fun m s => min m s.date) a ≤ s.date := by
  induction l generalizing a with
  | nil => simp
  | cons h t ih =>
    intro s hs
    simp only [List.foldl_cons]
    rcases List.mem_cons.mp hs with hs2 | hs2
    · rw [hs2]
      exact (foldl_min_le_init t _).trans (min_le_right _ _)
    · exact ih (min a h.date) s hs2

/-- A left fold of `min` over dates is attained: it is the initial value or a
date in the list. -/
theorem foldl_min_attained (l : List LeadTimeRow) (a : Int) :
    l.foldl (fun m s => min m s.date) a = a ∨
      ∃ s ∈ l, l.foldl (fun m s => min m s.date) a = s.date := by
  induction l generalizing a with
  | nil => simp
  | cons h t ih =>
    simp only [List.foldl_cons]
    rcases ih (min a h.date) with heq | ⟨s, hs, heq⟩
    · rcases min_choice a h.date with hmin | hmin
      · left
        rw [heq, hmin]
      · right
        exact ⟨h, List.mem_cons_self _ _, by rw [heq, hmin]⟩
    · right
      exact ⟨s, List.mem_cons_of_mem _ hs, heq⟩

/-- The row-qualification predicate of `find_category_threshold_time`. -/
theorem find_threshold_none_iff (track_df : List LeadTimeRow) (threshold_kt : Rat) :
    find_category_threshold_time track_df threshold_kt = none ↔
      ∀ r ∈ track_df, ∀ w, r.max_wind = some w → ¬ threshold_kt ≤ w := by
  simp only [find_category_threshold_time]
  cases hf : track_df.filter (fun r =>
      match r.max_wind with
      | some w => decide (threshold_kt ≤ w)
      | none => false) with
  | nil =>
    simp only [List.filter_eq_nil_iff] at hf
    simp only [true_iff]
    intro r hr w hw hle
    have hfr := hf r hr
    rw [hw] at hfr
    simp [hle] at hfr
  | cons r rest =>
    simp only [reduceCtorEq, false_iff, not_forall]
    have hr : r ∈ track_df.filter (fun r =>
        match r.max_wind with
        | some w => decide (threshold_kt ≤ w)
        | none => false) := by
      rw [hf]
      exact List.mem_cons_self _ _
    rw [List.mem_filter] at hr
    obtain ⟨hmem, hp⟩ := hr
    rcases hw : r.max_wind with _ | w
    · rw [hw] at hp
      simp at hp
    · rw [hw] at hp
      simp only [decide_eq_true_eq] at hp
      exact ⟨r, hmem, w, hw, by simpa using hp⟩

/-- When `find_category_threshold_time` returns a time, that time is the date of
a qualifying row and is minimal among all qualifying rows: it is the first
timestamp at which the threshold is met. -/
theorem find_threshold_some_spec (track_df : List LeadTimeRow) (threshold_kt : Rat)
    (t : Int) (h : find_category_threshold_time track_df threshold_kt = some t) :
    (∃ r ∈ track_df, r.date = t ∧ ∃ w, r.max_wind = some w ∧ threshold_kt ≤ w) ∧
    (∀ r ∈ track_df, ∀ w, r.max_wind = some w → threshold_kt ≤ w → t ≤ r.date) := by
  simp only [find_category_threshold_time] at h
  rcases hf : track_df.filter (fun r =>
      match r.max_wind with
      | some w => decide (threshold_kt ≤ w)
      | none => false) with _ | ⟨r0, rest⟩
  · rw [hf] at h
    simp at h
  · rw [hf] at h
    simp only [Option.some.injEq] at h
    have hmem_filter : ∀ s, s ∈ r0 :: rest → s ∈ track_df ∧
        ∃ w, s.max_wind = some w ∧ threshold_kt ≤ w := by
      intro s hs
      have : s ∈ track_df.filter (fun r =>
          match r.max_wind with
          | some w => decide (threshold_kt ≤ w)
          | none => false) := by
        rw [hf]
        exact hs
      rw [List.mem_filter] at this
      obtain ⟨hmem, hp⟩ := this
      rcases hw : s.max_wind with _ | w
      · rw [hw] at hp
        simp at hp
      · rw [hw] at hp
        simp only [decide_eq_true_eq] at hp
        exact ⟨hmem, ⟨w, by simp [hw], hp⟩⟩
    constructor
    · rcases foldl_min_attained rest r0.date with heq | ⟨s, hs, heq⟩
      · obtain ⟨hmem, hw⟩ := hmem_filter r0 (List.mem_cons_self _ _)
        exact ⟨r0, hmem, by rw [← h, heq], hw⟩
      · obtain ⟨hmem, hw⟩ := hmem_filter s (List.mem_cons_of_mem _ hs)
        exact ⟨s, hmem, by rw [← h, heq], hw⟩
    · intro r hr w hw hle
      have hrf : r ∈ r0 :: rest := by
        have : r ∈ track_df.filter (fun r =>
            match r.max_wind with
            | some w => decide (threshold_kt ≤ w)
            | none => false) := by
          rw [List.mem_filter]
          refine ⟨hr, ?_⟩
          rw [hw]
          simpa using hle
        rw [hf] at this
        exact this
      rcases List.mem_cons.mp hrf with hrf2 | hrf2
    -- r is the head or in the tail
      · rw [← h, hrf2]
        exact foldl_min_le_init rest r0.date
      · rw [← h]
        exact foldl_min_le_mem rest r0.date r hrf2

/-- `checkNoneSuffix true` accepts exactly the all-`none` lists. -/
theorem checkNoneSuffix_true_iff (l : List (Option Rat)) :
    checkNoneSuffix true l = true ↔ ∀ x ∈ l, x = none := by
  induction l with
  | nil => simp [checkNoneSuffix]
  | cons v rest ih =>
    cases v with
    | none => simpa [checkNoneSuffix] using ih
    | some w => simp [checkNoneSuffix]

/-- `checkNoneSuffix` rejects any list with a non-`none` after a `none`. -/
theorem checkNoneSuffix_false_of_some_after_none (l : List (Option Rat)) (b : Bool)
    (i j : ℕ) (hij : i < j) (x : Rat)
    (hi : l[i]? = some none) (hj : l[j]? = some (some x)) :
    checkNoneSuffix b l = false := by
  induction l generalizing b i j with
  | nil => simp at hi
  | cons v rest ih =>
    rcases i with _ | i
    · simp only [List.getElem?_cons_zero, Option.some.injEq] at hi
      subst hi
      rcases j with _ | j
      · omega
      · simp only [List.getElem?_cons_succ] at hj
        show checkNoneSuffix true rest = false
        by_contra hcon
        rw [Bool.not_eq_false] at hcon
        have hall := (checkNoneSuffix_true_iff rest).mp hcon
        obtain ⟨hjlt, hjget⟩ := List.getElem?_eq_some_iff.mp hj
        have hx := hall rest[j] (List.getElem_mem hjlt)
        rw [hjget] at hx
        simp at hx
    · rcases j with _ | j
      · omega
      · simp only [List.getElem?_cons_succ] at hi hj
        cases v with
        | none =>
          show checkNoneSuffix true rest = false
          exact ih true i j (by omega) hi hj
        | some w =>
          show (if b then false else checkNoneSuffix b rest) = false
          cases b with
          | true => rfl
          | false => simpa using ih false i j (by omega) hi hj

/-- A list accepted by `checkNoneSuffix false` splits into a `some` prefix and a
`none` suffix. -/
theorem checkNoneSuffix_decompose (l : List (Option Rat))
    (h : checkNoneSuffix false l = true) :
    ∃ (xs : List Rat) (k : ℕ), l = xs.map some ++ List.replicate k none := by
  induction l with
  | nil => exact ⟨[], 0, rfl⟩
  | cons v rest ih =>
    cases v with
    | some w =>
      have hrest : checkNoneSuffix false rest = true := by
        simp only [checkNoneSuffix] at h
        simpa using h
      obtain ⟨xs, k, hxk⟩ := ih hrest
      exact ⟨w :: xs, k, by simp [hxk]⟩
    | none =>
      have hrest : checkNoneSuffix true rest = true := by
        simpa [checkNoneSuffix] using h
      have hall := (checkNoneSuffix_true_iff rest).mp hrest
      refine ⟨[], rest.length + 1, ?_⟩
      simp only [List.map_nil, List.nil_append, List.replicate_succ]
      congr 1
      exact List.eq_replicate_of_mem hall

/-- Filtering the `some`s out of an all-`none` list yields the empty list. -/
theorem filterMap_id_replicate_none (k : ℕ) :
    (List.replicate k (none : Option Rat)).filterMap id = [] := by
  induction k with
  | zero => rfl
  | succ n ihn =>
    rw [List.replicate_succ, List.filterMap_cons]
    exact ihn

/-- `checkDecreasing` rejects any adjacent pair increasing by more than 6. -/
theorem checkDecreasing_false_of_jump (xs : List Rat) (i : ℕ) (a b : Rat)
    (hi : xs[i]? = some a) (hi1 : xs[i + 1]? = some b) (hab : a < b - 6) :
    checkDecreasing xs = false := by
  induction xs generalizing i with
  | nil => simp at hi
  | cons c rest ih =>
    rcases i with _ | i
    · simp only [List.getElem?_cons_zero, Option.some.injEq] at hi
      subst hi
      rcases rest with _ | ⟨d, rest2⟩
      · simp at hi1
      · simp only [List.getElem?_cons_succ, List.getElem?_cons_zero,
          Option.some.injEq] at hi1
        subst hi1
        simp [checkDecreasing, hab]
    · simp only [List.getElem?_cons_succ] at hi hi1
      rcases rest with _ | ⟨d, rest2⟩
      · simp at hi
      · show (if c < d - 6 then false else checkDecreasing (d :: rest2)) = false
        by_cases hc : c < d - 6
        · simp [hc]
        · simpa [hc] using ih i hi hi1

/-! ## Claim C6 — lead times and their validation -/

/-- Claim C6: each category's lead time is `(closest approach − first time the
track's wind meets the category threshold) / 3600` hours, or `none` when the
threshold is never reached; the Ida-like scenario (Cat1 at 0 h, Cat2 at +12 h,
Cat3 at +24 h, Cat4 at +36 h, never Cat5, closest approach at +42 h) yields
lead times 42/30/18/6 hours and `none`, accepted by the validator; and the
validator rejects any list with a non-null after a null or with an adjacent
increase of more than 6 hours. -/
theorem claim_C6_lead_times :
    (∀ (track_df : List LeadTimeRow) (nearest_approach_time : Int) (i : ℕ) (θ : Rat),
      CATEGORY_THRESHOLDS[i]? = some θ →
      ((∀ r ∈ track_df, ∀ w, r.max_wind = some w → ¬ θ ≤ w) →
        (calculate_lead_times track_df nearest_approach_time)[i]? = some none) ∧
      (∀ t, find_category_threshold_time track_df θ = some t →
        ((∃ r ∈ track_df, r.date = t ∧ ∃ w, r.max_wind = some w ∧ θ ≤ w) ∧
          (∀ r ∈ track_df, ∀ w, r.max_wind = some w → θ ≤ w → t ≤ r.date)) ∧
        (calculate_lead_times track_df nearest_approach_time)[i]? =
          some (some (((nearest_approach_time - t : Int) : Rat) / 3600)))) ∧
    (calculate_lead_times
        [{ date := 0, max_wind := some 64 }, { date := 43200, max_wind := some 83 },
          { date := 86400, max_wind := some 96 }, { date := 129600, max_wind := some 113 }]
        151200 = [some 42, some 30, some 18, some 6, none] ∧
      validate_lead_times [some 42, some 30, some 18, some 6, none] = true) ∧
    (∀ (values : List (Option Rat)) (i j : ℕ) (x : Rat), i < j →
      values[i]? = some none → values[j]? = some (some x) →
      validate_lead_times values = false) ∧
    (∀ (values : List (Option Rat)) (i : ℕ) (a b : Rat),
      values[i]? = some (some a) → values[i + 1]? = some (some b) → a < b - 6 →
      validate_lead_times values = false) := by
  refine ⟨?_, ⟨?_, ?_⟩, ?_, ?_⟩
  · intro track_df approach i θ hθ
    have hmap : (calculate_lead_times track_df approach)[i]? =
        (CATEGORY_THRESHOLDS[i]?).map (fun threshold_kt =>
          match find_category_threshold_time track_df threshold_kt with
          | none => none
          | some t => some (((approach - t : Int) : Rat) / 3600)) := by
      simp [calculate_lead_times, List.getElem?_map]
    constructor
    · intro hnever
      have hnone : find_category_threshold_time track_df θ = none :=
        (find_threshold_none_iff track_df θ).mpr hnever
      rw [hmap, hθ]
      simp [hnone]
    · intro t ht
      refine ⟨find_threshold_some_spec track_df θ t ht, ?_⟩
      rw [hmap, hθ]
      simp [ht]
  · norm_num [calculate_lead_times, find_category_threshold_time, CATEGORY_THRESHOLDS]
  · norm_num [validate_lead_times, checkNoneSuffix, checkDecreasing]
  · intro values i j x hij hi hj
    rw [validate_lead_times,
      checkNoneSuffix_false_of_some_after_none values false i j hij x hi hj]
    rfl
  · intro values i a b hi hi1 hab
    rw [validate_lead_times]
    cases hns : checkNoneSuffix false values with
    | false => rfl
    | true =>
      obtain ⟨xs, k, hdecomp⟩ := checkNoneSuffix_decompose values hns
      have hstrip : ∀ (m : ℕ) (c : Rat), values[m]? = some (some c) →
          xs[m]? = some c := by
        intro m c hm
        rw [hdecomp, List.getElem?_append] at hm
        by_cases hlt : m < xs.length
        · rw [if_pos (by simpa using hlt)] at hm
          rw [List.getElem?_eq_getElem (by simpa using hlt : m < (xs.map some).length)] at hm
          rw [List.getElem_map] at hm
          simp only [Option.some.injEq] at hm
          rw [List.getElem?_eq_getElem hlt, hm]
        · rw [if_neg (by simpa using hlt)] at hm
          rw [List.getElem?_replicate] at hm
          by_cases hk : m - (xs.map some).length < k
          · simp [hk] at hm
          · simp [hk] at hm
      have hfm : values.filterMap id = xs := by
        rw [hdecomp, List.filterMap_append]
        have h1 : (xs.map some).filterMap id = xs := by
          rw [List.filterMap_map]
          simp
        rw [h1, filterMap_id_replicate_none k, List.append_nil]
      rw [hfm, checkDecreasing_false_of_jump xs i a b (hstrip i a hi) (hstrip (i + 1) b hi1) hab]
      rfl

/-- Witness for claim C6: the theorem applied to the Ida-like track for the
never-reached Cat5 lead time, and to concrete validator inputs. -/
theorem claim_C6_lead_times_witness :
    (calculate_lead_times
      [{ date := 0, max_wind := some 64 }, { date := 43200, max_wind := some 83 },
        { date := 86400, max_wind := some 96 }, { date := 129600, max_wind := some 113 }]
      151200)[4]? = some none ∧
    validate_lead_times [none, some 3] = false ∧
    validate_lead_times [some 0, some 10] = false :=
  ⟨(claim_C6_lead_times.1
      [{ date := 0, max_wind := some 64 }, { date := 43200, max_wind := some 83 },
        { date := 86400, max_wind := some 96 }, { date := 129600, max_wind := some 113 }]
      151200 4 137 (by norm_num [CATEGORY_THRESHOLDS])).1
      (by norm_num),
    claim_C6_lead_times.2.2.1 [none, some 3] 0 1 3 (by norm_num) (by norm_num) (by norm_num),
    claim_C6_lead_times.2.2.2 [some 0, some 10] 0 0 10 (by norm_num) (by norm_num) (by norm_num)⟩

/-! ## Imputer helper lemmas -/

/-- Reading an untouched quadrant after a functional update. -/
theorem RadiiRow.get_set_ne (r : RadiiRow) (q q2 : Quadrant) (v : Option Rat)
    (h : q ≠ q2) : (r.set q2 v).get q = r.get q := by
  cases q <;> cases q2 <;> simp_all [RadiiRow.get, RadiiRow.set]

/-- One fill step leaves a present-and-positive quadrant's effective value
unchanged. -/
theorem fillStep_get (applied_ratio : Rat) (prevImputed cur : RadiiRow)
    (acc : RadiiRow × (Quadrant → Bool)) (q q2 : Quadrant)
    (hq : validRadius (cur.get q) = true) :
    (fillStep applied_ratio prevImputed cur acc q2).1.get q = acc.1.get q := by
  rw [fillStep]
  by_cases h2 : validRadius (cur.get q2) = true
  · simp [h2]
  · have hne : q ≠ q2 := fun hqq => h2 (hqq ▸ hq)
    cases hpv : prevImputed.get q2 with
    | none => simp [h2, hpv]
    | some pv =>
      simp only [h2, Bool.false_eq_true, if_false, hpv]
      exact RadiiRow.get_set_ne acc.1 q q2 _ hne

/-- The quadrant-filling fold leaves a present-and-positive quadrant unchanged. -/
theorem fill_fold_get (applied_ratio : Rat) (prevImputed cur : RadiiRow) (q : Quadrant)
    (hq : validRadius (cur.get q) = true) (qs : List Quadrant) :
    ∀ (acc : RadiiRow × (Quadrant → Bool)), acc.1.get q = cur.get q →
    (qs.foldl (fillStep applied_ratio prevImputed cur) acc).1.get q = cur.get q := by
  induction qs with
  | nil =>
    intro acc hacc
    exact hacc
  | cons q2 rest ih =>
    intro acc hacc
    simp only [List.foldl_cons]
    apply ih
    rw [fillStep_get applied_ratio prevImputed cur acc q q2 hq]
    exact hacc

/-- `fillQuadrants` leaves a present-and-positive quadrant's effective value at
its raw value. -/
theorem fillQuadrants_get_of_valid (applied_ratio : Rat) (prevImputed cur : RadiiRow)
    (q : Quadrant) (hq : validRadius (cur.get q) = true) :
    (fillQuadrants applied_ratio prevImputed cur).1.get q = cur.get q := by
  rw [fillQuadrants]
  exact fill_fold_get applied_ratio prevImputed cur q hq quadrantList (cur, fun _ => false) rfl

/-- Every branch of the per-row imputation step keeps the raw columns intact. -/
theorem imputeRowStep_raw (prev : Option ImputedRow) (lkr : Option Rat)
    (r : RadiiRow) (m : Bool) : (imputeRowStep prev lkr r m).1.raw = r := by
  simp only [imputeRowStep.eq_def]
  split
  · rfl
  · split
    · rfl
    · rfl

/-- The per-row imputation step keeps a present-and-positive raw quadrant's
effective value equal to the raw value. -/
theorem imputeRowStep_observed (prev : Option ImputedRow) (lkr : Option Rat)
    (r : RadiiRow) (m : Bool) (q : Quadrant) (hq : validRadius (r.get q) = true) :
    (imputeRowStep prev lkr r m).1.imputed.get q = r.get q := by
  simp only [imputeRowStep.eq_def]
  split
  · rfl
  · split
    · exact fillQuadrants_get_of_valid _ _ r q hq
    · rfl

/-- An unimputable row (mask false) passes through the step untouched. -/
theorem imputeRowStep_skip (prev : Option ImputedRow) (lkr : Option Rat)
    (r : RadiiRow) : (imputeRowStep prev lkr r false).1.imputed = r := rfl

/-- The raw view of the imputation recursion is the input row sequence. -/
theorem imputeAux_raw (l : List (RadiiRow × Bool)) :
    ∀ (prev : Option ImputedRow) (lkr : Option Rat),
      (imputeAux prev lkr l).map (·.raw) = l.map (·.1) := by
  induction l with
  | nil => intro prev lkr; rfl
  | cons hd tl ih =>
    obtain ⟨r, m⟩ := hd
    intro prev lkr
    simp only [imputeAux, List.map_cons]
    rw [imputeRowStep_raw, ih]

/-- Each output row of the imputation recursion is the step applied to the
corresponding input row (for some carried state). -/
theorem imputeAux_getElem? (l : List (RadiiRow × Bool)) :
    ∀ (prev : Option ImputedRow) (lkr : Option Rat) (i : ℕ) (rm : RadiiRow × Bool),
      l[i]? = some rm →
      ∃ prev2 lkr2,
        (imputeAux prev lkr l)[i]? = some (imputeRowStep prev2 lkr2 rm.1 rm.2).1 := by
  induction l with
  | nil =>
    intro prev lkr i rm h
    simp at h
  | cons hd tl ih =>
    obtain ⟨r, m⟩ := hd
    intro prev lkr i rm h
    rcases i with _ | i
    · simp only [List.getElem?_cons_zero, Option.some.injEq] at h
      subst h
      exact ⟨prev, lkr, by simp [imputeAux]⟩
    · simp only [List.getElem?_cons_succ] at h
      obtain ⟨p2, l2, hres⟩ := ih _ _ i rm h
      exact ⟨p2, l2, by simpa [imputeAux] using hres⟩

/-- The imputable mask has one entry per input row. -/
theorem identifyAux_length (l : List RadiiRow) :
    ∀ prev, (identifyAux prev l).length = l.length := by
  induction l with
  | nil => intro prev; rfl
  | cons hd tl ih =>
    intro prev
    simp only [identifyAux, List.length_cons]
    rw [ih]

/-- The raw columns of an imputed track are the input track: the imputer never
overwrites raw observed values. -/
theorem rawOf_impute (storm_track : List RadiiRow) :
    rawOf (impute_missing_wind_radii storm_track) = storm_track := by
  rw [rawOf, impute_missing_wind_radii, imputeAux_raw]
  rw [List.map_fst_zip]
  rw [identify_imputable_segments, identifyAux_length]

/-- A step whose current row has fewer than two defined quadrants and whose
previous raw row (when it exists) also has fewer than two is flagged
not-imputable. -/
theorem identifyAux_false_at (l : List RadiiRow) :
    ∀ (prev : Option RadiiRow) (i : ℕ) (r : RadiiRow), l[i]? = some r →
      definedCount r < 2 →
      (i = 0 → (match prev with | some p => definedCount p | none => 0) < 2) →
      (∀ p, l[i - 1]? = some p → i ≠ 0 → definedCount p < 2) →
      (identifyAux prev l)[i]? = some false := by
  induction l with
  | nil =>
    intro prev i r h
    simp at h
  | cons hd tl ih =>
    intro prev i r h hdc hprev0 hprevs
    rcases i with _ | i
    · simp only [List.getElem?_cons_zero, Option.some.injEq] at h
      subst h
      have hp := hprev0 rfl
      simp only [identifyAux, List.getElem?_cons_zero, Option.some.injEq]
      have hne4 : ¬ definedCount hd = 4 := by omega
      rw [if_neg hne4]
      have h1 : ¬ 2 ≤ definedCount hd := by omega
      have h2 : ¬ 2 ≤ (match prev with | some p => definedCount p | none => 0) := by omega
      simp [h1, h2]
    · simp only [List.getElem?_cons_succ] at h
      simp only [identifyAux, List.getElem?_cons_succ]
      apply ih (some hd) i r h hdc
      · intro hi0
        subst hi0
        have := hprevs hd (by simp) (by omega)
        simpa using this
      · intro p hp hne
        apply hprevs p _ (by omega)
        rcases i with _ | i2
        · omega
        · simpa using hp

/-! ## Claim C4 — the imputer is idempotent and never regresses observed data -/

/-- Claim C4: re-running `impute_missing_wind_radii` on an already-imputed track
yields the same result (the raw columns determine the output and are preserved),
the imputer never overwrites the raw observed radii columns, and wherever a raw
quadrant radius is present and positive the effective (imputed) radius equals
the raw value. -/
theorem claim_C4_imputer (storm_track : List RadiiRow) :
    impute_missing_wind_radii (rawOf (impute_missing_wind_radii storm_track)) =
      impute_missing_wind_radii storm_track ∧
    rawOf (impute_missing_wind_radii storm_track) = storm_track ∧
    (∀ (i : ℕ) (r : RadiiRow) (q : Quadrant),
      storm_track[i]? = some r → validRadius (r.get q) = true →
      ∃ ir : ImputedRow, (impute_missing_wind_radii storm_track)[i]? = some ir ∧
        ir.raw = r ∧ ir.imputed.get q = r.get q) := by
  refine ⟨by rw [rawOf_impute], rawOf_impute storm_track, ?_⟩
  intro i r q hi hq
  have hilen : i < storm_track.length := (List.getElem?_eq_some_iff.mp hi).1
  have hmask_len : (identify_imputable_segments storm_track).length = storm_track.length := by
    rw [identify_imputable_segments]
    exact identifyAux_length _ _
  have himask : i < (identify_imputable_segments storm_track).length := by omega
  have hmi : (identify_imputable_segments storm_track)[i]? =
      some ((identify_imputable_segments storm_track)[i]) :=
    List.getElem?_eq_getElem himask
  have hzip : (storm_track.zip (identify_imputable_segments storm_track))[i]? =
      some (r, (identify_imputable_segments storm_track)[i]) := by
    rw [List.getElem?_zip_eq_some]
    exact ⟨hi, hmi⟩
  obtain ⟨p2, l2, hres⟩ := imputeAux_getElem? _ none (some 1) i _ hzip
  refine ⟨(imputeRowStep p2 l2 r ((identify_imputable_segments storm_track)[i])).1,
    ?_, imputeRowStep_raw p2 l2 r _, imputeRowStep_observed p2 l2 r _ q hq⟩
  rw [impute_missing_wind_radii]
  exact hres

/-- Witness for claim C4 at a one-row track with one observed quadrant. -/
theorem claim_C4_imputer_witness :
    ([({ ne := some 5, se := none, sw := none, nw := none } : RadiiRow)][0]? =
      some ({ ne := some 5, se := none, sw := none, nw := none } : RadiiRow)) ∧
    validRadius (RadiiRow.get { ne := some 5, se := none, sw := none, nw := none }
      Quadrant.ne) = true ∧
    (∃ ir : ImputedRow,
      (impute_missing_wind_radii
        [{ ne := some 5, se := none, sw := none, nw := none }])[0]? = some ir ∧
      ir.raw = { ne := some 5, se := none, sw := none, nw := none } ∧
      ir.imputed.get Quadrant.ne =
        RadiiRow.get { ne := some 5, se := none, sw := none, nw := none } Quadrant.ne) :=
  ⟨by decide, by decide,
    (claim_C4_imputer [{ ne := some 5, se := none, sw := none, nw := none }]).2.2 0 _
      Quadrant.ne (by decide) (by decide)⟩

/-! ## Claim C7 — zero-quadrant steps stay missing and give a null polygon -/

/-- Claim C7: a time-step with zero valid quadrant radii and no usable previous
directional signal (the previous step, when it exists, has fewer than two
defined quadrants) is flagged not-imputable, its effective radii stay exactly
the raw (missing) radii, and the instantaneous wind polygon built from them is
`none` rather than an exception. -/
theorem claim_C7_missing_step (storm_track : List RadiiRow) (i : ℕ) (r : RadiiRow)
    (hri : storm_track[i]? = some r) (hzero : definedCount r = 0)
    (hprev : ∀ p, storm_track[i - 1]? = some p → i ≠ 0 → definedCount p < 2) :
    (identify_imputable_segments storm_track)[i]? = some false ∧
    (∃ ir : ImputedRow, (impute_missing_wind_radii storm_track)[i]? = some ir ∧
      ir.raw = r ∧ ir.imputed = r) ∧
    (∀ (is_valid_poly : PyGeometry → Bool) (lat lon buffer_deg : ℚ) (n : ℕ),
      create_instantaneous_wind_polygon is_valid_poly lat lon r.ne r.se r.sw r.nw
        buffer_deg n = none) := by
  have hmaskF : (identify_imputable_segments storm_track)[i]? = some false := by
    rw [identify_imputable_segments]
    exact identifyAux_false_at storm_track none i r hri (by omega) (fun _ => by decide) hprev
  refine ⟨hmaskF, ?_, ?_⟩
  · have hzip : (storm_track.zip (identify_imputable_segments storm_track))[i]? =
        some (r, false) := by
      rw [List.getElem?_zip_eq_some]
      exact ⟨hri, hmaskF⟩
    obtain ⟨p2, l2, hres⟩ := imputeAux_getElem? _ none (some 1) i _ hzip
    refine ⟨(imputeRowStep p2 l2 r false).1, ?_, imputeRowStep_raw p2 l2 r false,
      imputeRowStep_skip p2 l2 r⟩
    rw [impute_missing_wind_radii]
    exact hres
  · intro is_valid_poly lat lon buffer_deg n
    have hall : ∀ q, validRadius (r.get q) = false := by
      have hf : quadrantList.filter (fun q => validRadius (r.get q)) = [] := by
        have := hzero
        rw [definedCount] at this
        exact List.length_eq_zero.mp this
      intro q
      have hq : q ∈ quadrantList := by cases q <;> simp [quadrantList]
      have hnq := List.filter_eq_nil_iff.mp hf q hq
      simpa using hnq
    have hfilter : quadrantList.filter (fun q => validRadius
        (match q with
          | Quadrant.ne => r.ne
          | Quadrant.se => r.se
          | Quadrant.sw => r.sw
          | Quadrant.nw => r.nw)) = [] := by
      rw [List.filter_eq_nil_iff]
      intro q hq
      have h := hall q
      cases q <;> simpa [RadiiRow.get] using h
    simp [create_instantaneous_wind_polygon.eq_def, hfilter]

/-- Witness for claim C7 at a two-row track whose second step has no valid
quadrants and whose first step has only one. -/
theorem claim_C7_missing_step_witness :
    ((identify_imputable_segments
      [{ ne := some 10, se := none, sw := none, nw := none },
        { ne := none, se := none, sw := none, nw := none }])[1]? = some false) ∧
    (∃ ir : ImputedRow,
      (impute_missing_wind_radii
        [{ ne := some 10, se := none, sw := none, nw := none },
          { ne := none, se := none, sw := none, nw := none }])[1]? = some ir ∧
      ir.raw = { ne := none, se := none, sw := none, nw := none } ∧
      ir.imputed = { ne := none, se := none, sw := none, nw := none }) ∧
    create_instantaneous_wind_polygon (fun _ => true) 0 0 none none none none (1/50) 30 =
      none := by
  have h := claim_C7_missing_step
    [{ ne := some 10, se := none, sw := none, nw := none },
      { ne := none, se := none, sw := none, nw := none }] 1
    { ne := none, se := none, sw := none, nw := none }
    (by decide) (by decide)
    (by
      intro p hp hne
      rw [show (1 : ℕ) - 1 = 0 from rfl] at hp
      simp only [List.getElem?_cons_zero, Option.some.injEq] at hp
      rw [← hp]
      decide)
  exact ⟨h.1, h.2.1, h.2.2 (fun _ => true) 0 0 (1/50) 30⟩

/-! ## Claim C10 — the coverage polygon gates the edge-interpolation fallback -/

/-- `calculate_duration_features` always tags its result `timeline`. -/
theorem cdf_source (exposure_timeline : List ExposureEntry) (interval_minutes : Int) :
    (calculate_duration_features exposure_timeline interval_minutes).duration_source =
      "timeline" := by
  rw [calculate_duration_features]
  split
  · rfl
  · rfl

/-- Claim C10: when a coverage polygon is supplied and does not contain the
query point, `calculate_duration_for_tract` never applies the edge-interpolation
fallback — the envelope argument is not consulted — and the result is exactly
the plain timeline evaluation, whose `duration_source` is `"timeline"`. -/
theorem claim_C10_coverage_gate (is_valid_poly contains_inst : PyGeometry → Bool)
    (track_df : List StormTrackRow) (interval_minutes : Int)
    (envelope : Option ShapelyPoly) (c : ShapelyPoly)
    (hc : c.contains_centroid = false) :
    calculate_duration_for_tract is_valid_poly contains_inst track_df interval_minutes
        envelope (some c) =
      (interpolate_track_temporal { has_date_col := true, rows := durationSubset track_df }
        interval_minutes).map
        (fun interpolated => calculate_duration_features
          (check_centroid_exposure_over_time is_valid_poly contains_inst interpolated)
          interval_minutes) ∧
    (∀ res, calculate_duration_for_tract is_valid_poly contains_inst track_df interval_minutes
        envelope (some c) = Except.ok res → res.duration_source = "timeline") := by
  have hmain : calculate_duration_for_tract is_valid_poly contains_inst track_df
      interval_minutes envelope (some c) =
      (interpolate_track_temporal { has_date_col := true, rows := durationSubset track_df }
        interval_minutes).map
        (fun interpolated => calculate_duration_features
          (check_centroid_exposure_over_time is_valid_poly contains_inst interpolated)
          interval_minutes) := by
    rw [calculate_duration_for_tract]
    cases hInt : interpolate_track_temporal
        { has_date_col := true, rows := durationSubset track_df } interval_minutes with
    | error e => rfl
    | ok interpolated =>
      simp only [hc, Bool.false_eq_true, if_false, Except.map]
      split
      · rfl
      · rfl
  refine ⟨hmain, ?_⟩
  intro res hres
  rw [hmain] at hres
  cases hInt : interpolate_track_temporal
      { has_date_col := true, rows := durationSubset track_df } interval_minutes with
  | error e =>
    rw [hInt] at hres
    simp [Except.map] at hres
  | ok interpolated =>
    rw [hInt] at hres
    simp only [Except.map, Except.ok.injEq] at hres
    rw [← hres]
    exact cdf_source _ _

/-- Witness for claim C10: a non-containing coverage polygon together with a
containing envelope still yields the plain timeline result. -/
theorem claim_C10_coverage_gate_witness :
    (ShapelyPoly.mk false 0).contains_centroid = false ∧
    calculate_duration_for_tract (fun _ => false) (fun _ => false) [] 15
        (some (ShapelyPoly.mk true 0)) (some (ShapelyPoly.mk false 0)) =
      Except.ok (DurationFeatures.mk none none 0 0 false 0 "timeline") := by
  constructor
  · rfl
  · rw [(claim_C10_coverage_gate (fun _ => false) (fun _ => false) [] 15
      (some (ShapelyPoly.mk true 0)) (ShapelyPoly.mk false 0) rfl).1]
    decide

/-! ## Claim C2 — interpolator failure modes -/

/-- Claim C2, counterexample: an input frame whose timestamps are sorted
descending (not ascending) does not make `interpolate_track_temporal` fail; the
function sorts the rows itself and returns a successful result. -/
theorem claim_C2_counterexample :
    interpolate_track_temporal
      { has_date_col := true, rows := [{ date := 100, vals := [] }, { date := 0, vals := [] }] } 15 =
      Except.ok [{ date := 100, vals := [] }] ∧
    (interpolate_track_temporal
      { has_date_col := true, rows := [{ date := 100, vals := [] }, { date := 0, vals := [] }] } 15).isOk =
      true :=
  ⟨by decide, by decide⟩

/-- Claim C2 (amended): `interpolate_track_temporal` fails when the input lacks
a timestamp column; an unsorted input is sorted internally and (except for the
unrelated one-row `IndexError`) succeeds, so unsortedness is not an error. -/
theorem claim_C2_failure_modes (track_df : TrackFrame) (interval_minutes : Int) :
    (track_df.has_date_col = false →
      interpolate_track_temporal track_df interval_minutes =
        Except.error "track_df must include a date column") ∧
    (track_df.has_date_col = true → track_df.rows.length ≠ 1 →
      (interpolate_track_temporal track_df interval_minutes).isOk = true) := by
  constructor
  · intro h
    simp [interpolate_track_temporal, h]
  · intro h hne
    rw [interpolate_track_temporal, if_neg (by simp [h])]
    have hlen := List.length_insertionSort (fun a b : TrackRow => a.date ≤ b.date) track_df.rows
    rcases hs : List.insertionSort (fun a b : TrackRow => a.date ≤ b.date) track_df.rows with
      _ | ⟨a, tail⟩
  -- goals: nil case, cons case
    · rfl
    · rcases tail with _ | ⟨b, rest⟩
      · exfalso
        apply hne
        rw [hs] at hlen
        simpa using hlen.symm
      · rfl

/-- Witness for claim C2 at a no-date-column frame and at a two-row frame. -/
theorem claim_C2_failure_modes_witness :
    ((TrackFrame.mk false []).has_date_col = false ∧
      interpolate_track_temporal (TrackFrame.mk false []) 15 =
        Except.error "track_df must include a date column") ∧
    ((TrackFrame.mk true [{ date := 0, vals := [] }, { date := 900, vals := [] }]).has_date_col = true ∧
      (TrackFrame.mk true [{ date := 0, vals := [] }, { date := 900, vals := [] }]).rows.length ≠ 1 ∧
      (interpolate_track_temporal
        (TrackFrame.mk true [{ date := 0, vals := [] }, { date := 900, vals := [] }]) 15).isOk = true) :=
  ⟨⟨rfl, (claim_C2_failure_modes (TrackFrame.mk false []) 15).1 rfl⟩,
    ⟨rfl, by decide,
      (claim_C2_failure_modes
        (TrackFrame.mk true [{ date := 0, vals := [] }, { date := 900, vals := [] }]) 15).2 rfl
        (by decide)⟩⟩

/-! ## Claim C3 — interpolation structure -/

/-- `setLast` replaces exactly the final element. -/
theorem setLast_eq (x : TrackRow) : ∀ (l : List TrackRow), l ≠ [] →
    setLast x l = l.dropLast ++ [x]
  | [], h => absurd rfl h
  | [_], _ => rfl
  | a :: b :: rest, _ => by
    show a :: setLast x (b :: rest) = (a :: b :: rest).dropLast ++ [x]
    rw [setLast_eq x (b :: rest) (by simp), List.dropLast_cons₂]
    rfl

/-- Dates produced by one interpolation segment when the gap is an exact
positive multiple of the interval: one row per interval boundary. -/
theorem interpSegment_dates (s : Int) (hs : 0 < s) (a b : TrackRow) (k : Int) (hk : 1 ≤ k)
    (hdelta : b.date - a.date = k * s) :
    (interpSegment s a b).map (·.date) =
      (List.range k.toNat).map (fun j : ℕ => a.date + ((j : Int) + 1) * s) := by
  rw [interpSegment]
  have hd0 : ¬ (b.date - a.date ≤ 0) := by nlinarith
  rw [if_neg hd0, hdelta, Int.mul_fdiv_cancel k (by omega)]
  rw [List.map_map]
  apply List.map_congr_left
  intro j hj
  rw [List.mem_range] at hj
  have hjk : ((j : Int) + 1) ≤ k := by omega
  have hnotlt : ¬ (b.date < a.date + ((j : Int) + 1) * s) := by nlinarith
  simp only [Function.comp_apply, if_neg hnotlt]

/-- A multiple-gap segment is nonempty. -/
theorem interpSegment_ne_nil (s : Int) (hs : 0 < s) (a b : TrackRow) (k : Int) (hk : 1 ≤ k)
    (hdelta : b.date - a.date = k * s) : interpSegment s a b ≠ [] := by
  have hlen : (interpSegment s a b).length = k.toNat := by
    have hcl := congrArg List.length (interpSegment_dates s hs a b k hk hdelta)
    simpa using hcl
  intro hnil
  rw [hnil] at hlen
  simp only [List.length_nil] at hlen
  omega

/-- The final row of a multiple-gap segment lands exactly on the stop date. -/
theorem interpSegment_last_date (s : Int) (hs : 0 < s) (a b : TrackRow) (k : Int)
    (hk : 1 ≤ k) (hdelta : b.date - a.date = k * s) :
    (interpSegment s a b).getLast?.map (·.date) = some b.date := by
  rw [← List.getLast?_map]
  rw [interpSegment_dates s hs a b k hk hdelta]
  rcases Nat.exists_eq_succ_of_ne_zero (show k.toNat ≠ 0 by omega) with ⟨n, hn⟩
  rw [hn, List.range_succ, List.map_append]
  simp only [List.map_cons, List.map_nil]
  rw [List.getLast?_concat]
  have hnk : ((n : Int) + 1) = k := by omega
  rw [hnk]
  congr 1
  omega

/-- The final element of the prepended body of interpolated rows carries the
date of the final original observation. -/
theorem body_last_date (s : Int) (hs : 0 < s) :
    ∀ (rows : List TrackRow) (r0 : TrackRow),
      (∀ p ∈ consecPairs (r0 :: rows), ∃ k : Int, 1 ≤ k ∧ p.2.date - p.1.date = k * s) →
      (r0 :: ((consecPairs (r0 :: rows)).map
          (fun p => interpSegment s p.1 p.2)).flatten).getLast?.map (·.date) =
        ((r0 :: rows).getLast?).map (·.date) := by
  intro rows
  induction rows with
  | nil =>
    intro r0 hm
    rfl
  | cons r1 rest ih =>
    intro r0 hm
    obtain ⟨k, hk, hdelta⟩ := hm (r0, r1) (by simp [consecPairs])
    have hseg_last := interpSegment_last_date s hs r0 r1 k hk hdelta
    have hm2 : ∀ p ∈ consecPairs (r1 :: rest), ∃ k : Int, 1 ≤ k ∧
        p.2.date - p.1.date = k * s := by
      intro p hp
      exact hm p (by simp [consecPairs, hp])
    have ihr := ih r1 hm2
    show ((r0 :: (((r0, r1) :: consecPairs (r1 :: rest)).map
      (fun p => interpSegment s p.1 p.2)).flatten).getLast?).map (·.date) =
      ((r0 :: r1 :: rest).getLast?).map (·.date)
    rw [List.map_cons, List.flatten_cons]
    have hshape : (r0 :: (interpSegment s r0 r1 ++
        ((consecPairs (r1 :: rest)).map (fun p => interpSegment s p.1 p.2)).flatten)) =
        ([r0] ++ interpSegment s r0 r1) ++
          ((consecPairs (r1 :: rest)).map (fun p => interpSegment s p.1 p.2)).flatten := by
      simp
    rw [hshape, List.getLast?_append]
    rw [List.getLast?_cons_cons]
    rcases hb : (((consecPairs (r1 :: rest)).map
        (fun p => interpSegment s p.1 p.2)).flatten).getLast? with _ | y
    · -- empty interpolated tail: the segment end date r1.date decides
      have hsg : ([r0] ++ interpSegment s r0 r1).getLast? =
          (interpSegment s r0 r1).getLast? := by
        rw [List.getLast?_append]
        rcases hsome : (interpSegment s r0 r1).getLast? with _ | z
        · exact absurd (List.getLast?_isSome.mpr
            (interpSegment_ne_nil s hs r0 r1 k hk hdelta)) (by rw [hsome]; simp)
        · simp [hsome]
      rw [hb, Option.none_or, hsg, hseg_last]
      have hnil2 : (((consecPairs (r1 :: rest)).map
          (fun p => interpSegment s p.1 p.2)).flatten) = [] := by
        by_contra hne
        have hbs := List.getLast?_isSome.mpr hne
        rw [hb] at hbs
        simp at hbs
      have hihl := ihr
      rw [hnil2] at hihl
      simpa using hihl
    · -- nonempty tail: both sides end at the tail's last row
      rw [hb, Option.or_some]
      have hihl := ihr
      have hlast2 : ((r1 :: ((consecPairs (r1 :: rest)).map
          (fun p => interpSegment s p.1 p.2)).flatten).getLast?) = some y := by
        rcases hflat : (((consecPairs (r1 :: rest)).map
            (fun p => interpSegment s p.1 p.2)).flatten) with _ | ⟨z, zs⟩
        · rw [hflat] at hb
          simp at hb
        · rw [hflat] at hb
          rw [hflat, List.getLast?_cons_cons]
          exact hb
      rw [hlast2] at hihl
      exact hihl

/-- Every interval boundary of a pair of consecutive observations with an
exact-multiple gap appears among the interpolated body rows. -/
theorem body_mem_boundary (s : Int) (hs : 0 < s) (l : List TrackRow)
    (p : TrackRow × TrackRow) (hp : p ∈ consecPairs l) (k step : Int)
    (hk : 1 ≤ k) (hdelta : p.2.date - p.1.date = k * s)
    (hstep1 : 1 ≤ step) (hstepk : step ≤ k) :
    ∃ row ∈ ((consecPairs l).map (fun q => interpSegment s q.1 q.2)).flatten,
      row.date = p.1.date + step * s := by
  have hd := interpSegment_dates s hs p.1 p.2 k hk hdelta
  have hmem_date : p.1.date + step * s ∈ (interpSegment s p.1 p.2).map (·.date) := by
    rw [hd, List.mem_map]
    refine ⟨(step - 1).toNat, ?_, ?_⟩
    · rw [List.mem_range]
      omega
    · have hcast : (((step - 1).toNat : Int)) = step - 1 := by omega
      rw [hcast]
      ring
  rw [List.mem_map] at hmem_date
  obtain ⟨row, hrow, hdate⟩ := hmem_date
  refine ⟨row, ?_, hdate⟩
  rw [List.mem_flatten]
  exact ⟨interpSegment s p.1 p.2, List.mem_map.mpr ⟨p, hp, rfl⟩, hrow⟩

/-- Claim C3 (amended): for a strictly time-ascending track with at least two
observations whose consecutive gaps are positive exact multiples of the
interval, the interpolator succeeds, preserves the first and last original rows
exactly, produces a row at every interval boundary between consecutive
observations, and the concrete two-point six-hour track at 15-minute steps
yields exactly 25 rows.  (When a gap is smaller than the interval, or the final
gap is not an exact multiple, the boundary/endpoint properties fail — see the
counterexample.) -/
theorem claim_C3_interpolation (track_df : TrackFrame) (interval_minutes : Int)
    (hdate : track_df.has_date_col = true)
    (hsorted : track_df.rows.Chain' (fun a b => a.date < b.date))
    (hlen : 2 ≤ track_df.rows.length)
    (hpos : 0 < interval_minutes)
    (hmult : ∀ p ∈ consecPairs track_df.rows, ∃ k : Int, 1 ≤ k ∧
      p.2.date - p.1.date = k * (interval_minutes * 60)) :
    ∃ out, interpolate_track_temporal track_df interval_minutes = Except.ok out ∧
      out.head? = track_df.rows.head? ∧
      out.getLast? = track_df.rows.getLast? ∧
      (∀ p ∈ consecPairs track_df.rows, ∀ step : Int, 1 ≤ step →
        step * (interval_minutes * 60) ≤ p.2.date - p.1.date →
        ∃ row ∈ out, row.date = p.1.date + step * (interval_minutes * 60)) ∧
      Except.map List.length (interpolate_track_temporal
        { has_date_col := true,
          rows := [{ date := 0, vals := [some 0] }, { date := 21600, vals := [some 6] }] }
        15) = Except.ok 25 := by
  have hs : 0 < interval_minutes * 60 := by positivity
  haveI : IsTrans TrackRow (fun a b => a.date < b.date) :=
    ⟨fun a b c h1 h2 => lt_trans h1 h2⟩
  have hpw : track_df.rows.Pairwise (fun a b => a.date < b.date) :=
    List.chain'_iff_pairwise.mp hsorted
  have hple : track_df.rows.Pairwise (fun a b => a.date ≤ b.date) :=
    hpw.imp (fun h => le_of_lt h)
  have hsort_eq : List.insertionSort (fun a b => a.date ≤ b.date) track_df.rows =
      track_df.rows := List.Sorted.insertionSort_eq hple
  rcases hrows : track_df.rows with _ | ⟨r0, tail0⟩
  · rw [hrows] at hlen
    simp at hlen
  rcases tail0 with _ | ⟨r1, rest⟩
  · rw [hrows] at hlen
    simp at hlen
  rw [hrows] at hsort_eq hmult
  have hinterp : interpolate_track_temporal track_df interval_minutes =
      Except.ok (setLast ((r0 :: r1 :: rest).getLast (by simp))
        (r0 :: ((consecPairs (r0 :: r1 :: rest)).map
          (fun p => interpSegment (interval_minutes * 60) p.1 p.2)).flatten)) := by
    rw [interpolate_track_temporal, if_neg (by simp [hdate])]
    rw [hrows, hsort_eq]
  obtain ⟨k0, hk0, hd0⟩ := hmult (r0, r1) (by simp [consecPairs])
  have hseg0_ne := interpSegment_ne_nil (interval_minutes * 60) hs r0 r1 k0 hk0 hd0
  have hbody_ne : ((consecPairs (r0 :: r1 :: rest)).map
      (fun p => interpSegment (interval_minutes * 60) p.1 p.2)).flatten ≠ [] := by
    simp only [consecPairs, List.map_cons, List.flatten_cons]
    intro hcon
    exact hseg0_ne (List.append_eq_nil.mp hcon).1
  have hsetLast := setLast_eq ((r0 :: r1 :: rest).getLast (by simp))
    (r0 :: ((consecPairs (r0 :: r1 :: rest)).map
      (fun p => interpSegment (interval_minutes * 60) p.1 p.2)).flatten) (by simp)
  refine ⟨_, hinterp, ?_, ?_, ?_, by decide⟩
  · -- head is preserved
    rw [hsetLast]
    rcases hbody : ((consecPairs (r0 :: r1 :: rest)).map
        (fun p => interpSegment (interval_minutes * 60) p.1 p.2)).flatten with _ | ⟨c, cs⟩
    · exact absurd hbody hbody_ne
    · rw [hbody, List.dropLast_cons₂, List.head?_append]
      rfl
  · -- last row is preserved
    rw [hsetLast, List.getLast?_concat]
    exact (List.getLast?_eq_getLast _ (by simp)).symm
  · -- every interval boundary appears in the output
    intro p hp step hstep1 hstep2
    obtain ⟨k, hk, hdk⟩ := hmult p hp
    have hstepk : step ≤ k := by
      rw [hdk] at hstep2
      exact le_of_mul_le_mul_right hstep2 hs
    obtain ⟨row, hrowmem, hrowdate⟩ := body_mem_boundary (interval_minutes * 60) hs
      (r0 :: r1 :: rest) p hp k step hk hdk hstep1 hstepk
    have hrowmem2 : row ∈ r0 :: ((consecPairs (r0 :: r1 :: rest)).map
        (fun p => interpSegment (interval_minutes * 60) p.1 p.2)).flatten :=
      List.mem_cons_of_mem _ hrowmem
    have hsplit := List.dropLast_append_getLast
      (show (r0 :: ((consecPairs (r0 :: r1 :: rest)).map
        (fun p => interpSegment (interval_minutes * 60) p.1 p.2)).flatten) ≠ [] by simp)
    rw [← hsplit] at hrowmem2
    rw [hsetLast]
    rcases List.mem_append.mp hrowmem2 with hmem1 | hmem2
    · exact ⟨row, List.mem_append_left _ hmem1, hrowdate⟩
    · -- the matched row was the (overwritten) final body row; its date equals
      -- the final original row's date
      have hrq : row = (r0 :: ((consecPairs (r0 :: r1 :: rest)).map
          (fun p => interpSegment (interval_minutes * 60) p.1 p.2)).flatten).getLast
            (by simp) := by
        exact List.mem_singleton.mp hmem2
      have hlastd := body_last_date (interval_minutes * 60) hs (r1 :: rest) r0 hmult
      have h1last : (r0 :: ((consecPairs (r0 :: r1 :: rest)).map
          (fun p => interpSegment (interval_minutes * 60) p.1 p.2)).flatten).getLast? =
            some row := by
        rw [List.getLast?_eq_getLast _ (by simp), ← hrq]
      have h2last : (r0 :: r1 :: rest).getLast? =
          some ((r0 :: r1 :: rest).getLast (by simp)) :=
        List.getLast?_eq_getLast _ (by simp)
      rw [h1last, h2last] at hlastd
      simp only [Option.map_some', Option.some.injEq] at hlastd
      refine ⟨(r0 :: r1 :: rest).getLast (by simp),
        List.mem_append_right _ (by simp), ?_⟩
      rw [← hlastd]
      exact hrowdate

/-- Claim C3, counterexample: two observations 10 minutes apart interpolated at
15-minute steps produce a single-row output equal to the last observation, so
the first output row differs from the first original row. -/
theorem claim_C3_counterexample :
    interpolate_track_temporal
      { has_date_col := true,
        rows := [{ date := 0, vals := [some 0] }, { date := 600, vals := [some 1] }] } 15 =
      Except.ok [{ date := 600, vals := [some 1] }] ∧
    Except.map (fun l => l.head?)
      (interpolate_track_temporal
        { has_date_col := true,
          rows := [{ date := 0, vals := [some 0] }, { date := 600, vals := [some 1] }] } 15) ≠
      Except.ok (some { date := 0, vals := [some 0] }) :=
  ⟨by decide, by decide⟩

/-- Witness for claim C3 at the two-point six-hour track. -/
theorem claim_C3_interpolation_witness :
    ∃ out, interpolate_track_temporal
        { has_date_col := true,
          rows := [{ date := 0, vals := [some 0] }, { date := 21600, vals := [some 6] }] }
        15 = Except.ok out ∧
      out.head? = ([{ date := 0, vals := [some 0] },
        { date := 21600, vals := [some 6] }] : List TrackRow).head? ∧
      out.getLast? = ([{ date := 0, vals := [some 0] },
        { date := 21600, vals := [some 6] }] : List TrackRow).getLast? ∧
      (∀ p ∈ consecPairs [{ date := 0, vals := [some 0] },
          { date := 21600, vals := [some 6] }], ∀ step : Int, 1 ≤ step →
        step * (15 * 60) ≤ p.2.date - p.1.date →
        ∃ row ∈ out, row.date = p.1.date + step * (15 * 60)) ∧
      Except.map List.length (interpolate_track_temporal
        { has_date_col := true,
          rows := [{ date := 0, vals := [some 0] }, { date := 21600, vals := [some 6] }] }
        15) = Except.ok 25 :=
  claim_C3_interpolation
    { has_date_col := true,
      rows := [{ date := 0, vals := [some 0] }, { date := 21600, vals := [some 6] }] }
    15 rfl (by simp [List.chain'_cons]) (by decide) (by decide)
    (by
      intro p hp
      simp only [consecPairs] at hp
      rw [List.mem_singleton] at hp
      subst hp
      exact ⟨24, by decide, by decide⟩)

/-! ## Claim C9 — short tracks -/

/-- Claim C9, counterexample: an empty track (fewer than 2 points) is not
reported as a construction failure; `interpolate_track_temporal` silently
returns an empty successful result. -/
theorem claim_C9_counterexample :
    interpolate_track_temporal { has_date_col := true, rows := [] } 15 = Except.ok [] ∧
    (interpolate_track_temporal { has_date_col := true, rows := [] } 15).isOk = true :=
  ⟨by decide, by decide⟩

/-- Claim C9 (amended): a one-observation track makes the interpolator raise
(`IndexError` at the final `records[-1]` assignment), but an empty track is
silently degraded to an empty successful output rather than reported. -/
theorem claim_C9_short_tracks (track_df : TrackFrame) (interval_minutes : Int)
    (hdate : track_df.has_date_col = true) :
    (track_df.rows.length = 1 →
      interpolate_track_temporal track_df interval_minutes =
        Except.error "IndexError: list assignment index out of range") ∧
    (track_df.rows = [] →
      interpolate_track_temporal track_df interval_minutes = Except.ok []) := by
  constructor
  · intro h1
    rw [interpolate_track_temporal, if_neg (by simp [hdate])]
    have hlen := List.length_insertionSort (fun a b : TrackRow => a.date ≤ b.date) track_df.rows
    rcases hs : List.insertionSort (fun a b : TrackRow => a.date ≤ b.date) track_df.rows with
      _ | ⟨a, tail⟩
    · rw [hs] at hlen
      rw [h1] at hlen
      simp at hlen
    · rcases tail with _ | ⟨b, rest⟩
      · simp
      · rw [hs] at hlen
        rw [h1] at hlen
        simp at hlen
  · intro h0
    rw [interpolate_track_temporal, if_neg (by simp [hdate])]
    rw [h0]
    simp [List.insertionSort]

/-- Witness for claim C9 at a one-row frame and at an empty frame. -/
theorem claim_C9_short_tracks_witness :
    ((TrackFrame.mk true [{ date := 0, vals := [] }]).has_date_col = true ∧
      (TrackFrame.mk true [{ date := 0, vals := [] }]).rows.length = 1 ∧
      interpolate_track_temporal (TrackFrame.mk true [{ date := 0, vals := [] }]) 15 =
        Except.error "IndexError: list assignment index out of range") ∧
    ((TrackFrame.mk true []).has_date_col = true ∧
      interpolate_track_temporal (TrackFrame.mk true []) 15 = Except.ok []) :=
  ⟨⟨rfl, rfl,
      (claim_C9_short_tracks (TrackFrame.mk true [{ date := 0, vals := [] }]) 15 rfl).1 rfl⟩,
    ⟨rfl, (claim_C9_short_tracks (TrackFrame.mk true []) 15 rfl).2 rfl⟩⟩

/-- Claim C8 counterexample: the round trip is not distance-preserving for all
inputs — at a full great circle the recovered distance is 0, not the (large)
travelled distance — and the forward/backward bearings between the non-antipodal
points (0, 0) and (45, 90) are 45 and 270, which differ by 225, never within 45
degrees of 180 modulo 360. -/
theorem claim_C8_counterexample :
    (haversine_distance 0 0 (calculate_destination_point 0 0 0 (2 * Real.pi * R_NM)).2
        (calculate_destination_point 0 0 0 (2 * Real.pi * R_NM)).1 = 0 ∧
      20000 < 2 * Real.pi * R_NM) ∧
    calculate_bearing 0 0 45 90 = 45 ∧
    calculate_bearing 45 90 0 0 = 270 ∧
    ¬ ((45 : ℝ) = -0 ∧ pymod (90 - 0) 360 = 180) ∧
    ∀ k : ℤ, 45 ≤ |calculate_bearing 45 90 0 0 - calculate_bearing 0 0 45 90 -
      180 - 360 * (k : ℝ)| := by
  refine ⟨⟨roundtrip_full_circle, ?_⟩, bearing_origin_4590, bearing_4590_origin, ?_, ?_⟩
  · have h : R_NM = 3440.065 := rfl
    rw [h]
    nlinarith [Real.pi_gt_three]
  · intro h
    norm_num at h
  · intro k
    rw [bearing_4590_origin, bearing_origin_4590]
    rcases le_or_lt k 0 with hk | hk
    · have hk' : (k : ℝ) ≤ 0 := by exact_mod_cast hk
      rw [abs_of_nonneg (by linarith)]
      linarith
    · have hk1 : (1 : ℤ) ≤ k := by omega
      have hk' : (1 : ℝ) ≤ (k : ℝ) := by exact_mod_cast hk1
      rw [abs_of_nonpos (by linarith)]
      linarith

/-- Claim C8 (amended): in the real-number model, (i) destination followed by
distance-back recovers the travelled distance exactly — for both haversine
copies — provided that the start latitude is in [-90, 90] and the distance is
between 0 and half a great circle (`pi * R_NM`); (ii) the initial bearing always
lies in [0, 360); (iii) the forward and backward bearings differ by exactly 180
degrees for equator points whose longitude difference is in (0, 180), but not
for general non-antipodal points. -/
theorem claim_C8_geodesy (lat lon bearing d lat1 lon1 lat2 lon2 e1 e2 : ℝ)
    (hlat1 : -90 ≤ lat) (hlat2 : lat ≤ 90) (hd0 : 0 ≤ d) (hdpi : d ≤ Real.pi * R_NM)
    (he1 : 0 < e2 - e1) (he2 : e2 - e1 < 180) :
    haversine_distance lat lon (calculate_destination_point lat lon bearing d).2
        (calculate_destination_point lat lon bearing d).1 = d ∧
      _haversine_nm lat lon (calculate_destination_point lat lon bearing d).2
        (calculate_destination_point lat lon bearing d).1 = d ∧
      (0 ≤ calculate_bearing lat1 lon1 lat2 lon2 ∧
        calculate_bearing lat1 lon1 lat2 lon2 < 360) ∧
      calculate_bearing 0 e2 0 e1 - calculate_bearing 0 e1 0 e2 = 180 :=
  ⟨hav_atan2_roundtrip lat lon bearing d hlat1 hlat2 hd0 hdpi,
    hav_asin_roundtrip lat lon bearing d hlat1 hlat2 hd0 hdpi,
    calculate_bearing_mem lat1 lon1 lat2 lon2,
    by
      rw [bearing_equator_east e1 e2 he1 he2, bearing_equator_west e1 e2 he1 he2]
      norm_num⟩

/-- Witness for claim C8 at the origin with distance 0 and the equator pair
(0, 0) and (0, 90). -/
theorem claim_C8_geodesy_witness :
    (-90 : ℝ) ≤ 0 ∧ (0 : ℝ) ≤ 90 ∧ (0 : ℝ) ≤ 0 ∧ (0 : ℝ) ≤ Real.pi * R_NM ∧
      (0 : ℝ) < 90 - 0 ∧ (90 : ℝ) - 0 < 180 ∧
      (haversine_distance 0 0 (calculate_destination_point 0 0 0 0).2
          (calculate_destination_point 0 0 0 0).1 = 0 ∧
        _haversine_nm 0 0 (calculate_destination_point 0 0 0 0).2
          (calculate_destination_point 0 0 0 0).1 = 0 ∧
        (0 ≤ calculate_bearing 0 0 0 0 ∧ calculate_bearing 0 0 0 0 < 360) ∧
        calculate_bearing 0 90 0 0 - calculate_bearing 0 0 0 90 = 180) :=
  ⟨by norm_num, by norm_num, le_refl 0, le_of_lt (mul_pos Real.pi_pos R_NM_pos),
    by norm_num, by norm_num,
    claim_C8_geodesy 0 0 0 0 0 0 0 0 0 90 (by norm_num) (by norm_num) (le_refl 0)
      (le_of_lt (mul_pos Real.pi_pos R_NM_pos)) (by norm_num) (by norm_num)⟩

/-- Claim C5: (i) the plateau — whenever the centroid distance is at most the
clamped RMW, the wind is the center wind, `inside_eyewall` holds and the source
is `rmw_plateau`, for any wind-radii dictionary; (ii) with center wind 120 kt
and RMW 20 nm, a query point exactly 20 nm from the nearest track point gets
120 kt, `inside_eyewall` and the plateau source; (iii) a query point exactly
40 nm away, with no wind radii and the envelope edge strictly beyond 40 nm,
gets a wind strictly between 64 and 120 kt from the envelope-decay branch. -/
theorem claim_C5_wind_model (centroid np : ℝ × ℝ) (cw rmwi e : ℝ)
    (wr wr20 : Option WindRadiiDict) (lat lon bearing e20 e40 : ℝ)
    (hplateau : _haversine_nm np.2 np.1 centroid.2 centroid.1 ≤ max rmwi 0)
    (hlat1 : -90 ≤ lat) (hlat2 : lat ≤ 90) (hedge : 40 < e40) :
    ((calculate_max_wind_experienced centroid np cw rmwi e wr).max_wind_experienced_kt = cw ∧
      (calculate_max_wind_experienced centroid np cw rmwi e wr).inside_eyewall ∧
      (calculate_max_wind_experienced centroid np cw rmwi e wr).wind_source = "rmw_plateau") ∧
    ((calculate_max_wind_experienced (calculate_destination_point lat lon bearing 20)
        (lon, lat) 120 20 e20 wr20).max_wind_experienced_kt = 120 ∧
      (calculate_max_wind_experienced (calculate_destination_point lat lon bearing 20)
        (lon, lat) 120 20 e20 wr20).inside_eyewall ∧
      (calculate_max_wind_experienced (calculate_destination_point lat lon bearing 20)
        (lon, lat) 120 20 e20 wr20).wind_source = "rmw_plateau") ∧
    (64 < (calculate_max_wind_experienced (calculate_destination_point lat lon bearing 40)
        (lon, lat) 120 20 e40 none).max_wind_experienced_kt ∧
      (calculate_max_wind_experienced (calculate_destination_point lat lon bearing 40)
        (lon, lat) 120 20 e40 none).max_wind_experienced_kt < 120 ∧
      (calculate_max_wind_experienced (calculate_destination_point lat lon bearing 40)
        (lon, lat) 120 20 e40 none).wind_source = "rmw_decay_to_envelope") := by
  have hRval : R_NM = 3440.065 := rfl
  have h20pi : (20 : ℝ) ≤ Real.pi * R_NM := by
    rw [hRval]
    nlinarith [Real.pi_gt_three]
  have h40pi : (40 : ℝ) ≤ Real.pi * R_NM := by
    rw [hRval]
    nlinarith [Real.pi_gt_three]
  have hd20 : _haversine_nm ((lon, lat) : ℝ × ℝ).2 ((lon, lat) : ℝ × ℝ).1
      (calculate_destination_point lat lon bearing 20).2
      (calculate_destination_point lat lon bearing 20).1 = 20 :=
    hav_asin_roundtrip lat lon bearing 20 hlat1 hlat2 (by norm_num) h20pi
  have hd40 : _haversine_nm ((lon, lat) : ℝ × ℝ).2 ((lon, lat) : ℝ × ℝ).1
      (calculate_destination_point lat lon bearing 40).2
      (calculate_destination_point lat lon bearing 40).1 = 40 :=
    hav_asin_roundtrip lat lon bearing 40 hlat1 hlat2 (by norm_num) h40pi
  refine ⟨wind_plateau centroid np cw rmwi e wr hplateau, ?_, ?_⟩
  · apply wind_plateau (calculate_destination_point lat lon bearing 20) (lon, lat) 120 20 e20 wr20
    rw [hd20]
    norm_num
  · have hmax20 : max (20 : ℝ) 0 = 20 := by norm_num
    have houter : ¬ (_haversine_nm ((lon, lat) : ℝ × ℝ).2 ((lon, lat) : ℝ × ℝ).1
        (calculate_destination_point lat lon bearing 40).2
        (calculate_destination_point lat lon bearing 40).1 ≤ max (20 : ℝ) 0 ∨
        pyIsClose (_haversine_nm ((lon, lat) : ℝ × ℝ).2 ((lon, lat) : ℝ × ℝ).1
          (calculate_destination_point lat lon bearing 40).2
          (calculate_destination_point lat lon bearing 40).1) (max (20 : ℝ) 0) (1e-6)) := by
      rw [hd40, hmax20]
      rintro (h | h)
      · norm_num at h
      · unfold pyIsClose at h
        norm_num at h
    have hrange : ¬ pyIsClose (max (e40 - max (20 : ℝ) 0) 0) 0 (1e-9) := by
      rw [hmax20]
      rw [max_eq_left (by linarith : (0 : ℝ) ≤ e40 - 20)]
      unfold pyIsClose
      rw [sub_zero, abs_zero]
      rw [abs_of_pos (by linarith : (0 : ℝ) < e40 - 20)]
      rw [max_eq_left (by linarith : (0 : ℝ) ≤ e40 - 20)]
      intro h
      rcases le_max_iff.mp h with h' | h'
      · linarith
      · linarith
    obtain ⟨hwind, hsrc⟩ := wind_envelope_none (calculate_destination_point lat lon bearing 40)
      (lon, lat) 120 20 e40 houter hrange
    rw [hd40, hmax20] at hwind
    have h1 : max ((40 : ℝ) - 20) 0 = 20 := by norm_num
    have h2 : max (e40 - 20) 0 = e40 - 20 := max_eq_left (by linarith)
    have hpos : (0 : ℝ) < e40 - 20 := by linarith
    have hfrac_pos : (0 : ℝ) < 20 / (e40 - 20) := by positivity
    have hfrac_lt : 20 / (e40 - 20) < 1 := by
      rw [div_lt_one hpos]
      linarith
    have hmaxf : max (20 / (e40 - 20)) 0 = 20 / (e40 - 20) := max_eq_left (le_of_lt hfrac_pos)
    have hminf : min (20 / (e40 - 20)) 1 = 20 / (e40 - 20) := min_eq_left (le_of_lt hfrac_lt)
    rw [h1, h2, hmaxf, hminf] at hwind
    refine ⟨?_, ?_, hsrc⟩
    · rw [hwind]
      nlinarith [hfrac_lt, hfrac_pos]
    · rw [hwind]
      nlinarith [hfrac_lt, hfrac_pos]

/-- Witness for claim C5 at concrete inputs: both points at the origin with RMW
0 for the plateau clause, start point the origin with bearing 0 and an envelope
edge at 50 nm for the decay clause. -/
theorem claim_C5_wind_model_witness :
    _haversine_nm (0 : ℝ) 0 0 0 ≤ max (0 : ℝ) 0 ∧
      (-90 : ℝ) ≤ 0 ∧ (0 : ℝ) ≤ 90 ∧ (40 : ℝ) < 50 ∧
      (calculate_max_wind_experienced ((0 : ℝ), (0 : ℝ)) ((0 : ℝ), (0 : ℝ)) 7 0 5
          none).max_wind_experienced_kt = 7 ∧
      (64 < (calculate_max_wind_experienced (calculate_destination_point 0 0 0 40)
          ((0 : ℝ), (0 : ℝ)) 120 20 50 none).max_wind_experienced_kt ∧
        (calculate_max_wind_experienced (calculate_destination_point 0 0 0 40)
          ((0 : ℝ), (0 : ℝ)) 120 20 50 none).max_wind_experienced_kt < 120) := by
  have hh : _haversine_nm (0 : ℝ) 0 0 0 ≤ max (0 : ℝ) 0 := by
    have h0 : _haversine_nm (0 : ℝ) 0 0 0 = 0 := by
      simp only [_haversine_nm]
      norm_num [deg2rad, Real.sin_zero, Real.cos_zero, Real.sqrt_zero, Real.arcsin_zero]
    rw [h0]
    norm_num
  have h := claim_C5_wind_model ((0 : ℝ), (0 : ℝ)) ((0 : ℝ), (0 : ℝ)) 7 0 5 none none
    0 0 0 0 50 hh (by norm_num) (by norm_num) (by norm_num)
  exact ⟨hh, by norm_num, by norm_num, by norm_num, h.1.1, h.2.2.1, h.2.2.2.1⟩

end Hurricane
